import Mathlib

/-!
Shallow embedding of the schema-resolution and tree-matching engine of
`src/src/extension.ts` (a JSON-Schema helper extension).

Modelling conventions:
* A loaded schema document is an arbitrary JSON value (`JVal`); numbers are
  modelled as rationals (the decoded numeric value).  `undefined` is modelled
  as `Option.none` at the points where the source distinguishes it from JSON
  `null`.
* Document parse-tree nodes (`jsonc-parser`'s `Node`) are `DocNode`, carrying
  offset, length, decoded value and children; ranges of diagnostics are kept
  as byte offsets (the source's `toRange`/`positionAt` conversion to
  line/column positions is invertible presentation glue).
* `resolveSchemaNode`'s `seen : Set<SchemaNode>` is identity-based.  In a
  freshly parsed schema (a tree, no aliasing) every sub-node is identified by
  the pointer path at which it sits, so the visited set is modelled as a list
  of key paths.  For primitive targets JavaScript's `Set` membership is
  value-based; re-resolving a primitive returns it unchanged, so the
  path-based model is observationally equivalent.
* The source function `resolveSchemaNode` does not terminate on every input
  (the `allOf` branch restarts with a fresh visited set), so it is embedded
  with explicit fuel: `none` models an abnormal outcome (non-termination /
  thrown TypeError), `some none` models a returned `undefined`, and
  `some (some v)` a returned value.
* JavaScript truthiness is `jsFalsy`; `String(x)` conversion is `jsToStr`
  (number formatting is exact for integers, approximated for non-integral
  rationals, which never occur as type names).
-/

inductive JVal where
  | null
  | bool (b : Bool)
  | num (q : ℚ)
  | str (s : String)
  | arr (elems : List JVal)
  | obj (fields : List (String × JVal))
deriving Repr

mutual

def JVal.beq : JVal → JVal → Bool
  | JVal.null, JVal.null => true
  | JVal.bool a, JVal.bool b => a == b
  | JVal.num a, JVal.num b => a == b
  | JVal.str a, JVal.str b => a == b
  | JVal.arr a, JVal.arr b => JVal.beqList a b
  | JVal.obj a, JVal.obj b => JVal.beqFields a b
  | _, _ => false
termination_by structural a => a

def JVal.beqList : List JVal → List JVal → Bool
  | [], [] => true
  | a :: as, b :: bs => JVal.beq a b && JVal.beqList as bs
  | _, _ => false
termination_by structural a => a

def JVal.beqFields : List (String × JVal) → List (String × JVal) → Bool
  | [], [] => true
  | (k1, v1) :: as, (k2, v2) :: bs => k1 == k2 && JVal.beq v1 v2 && JVal.beqFields as bs
  | _, _ => false
termination_by structural a => a

end

mutual

theorem JVal.beq_iff : ∀ (a b : JVal), (JVal.beq a b = true) ↔ a = b
  | JVal.null, b => by cases b <;> simp [JVal.beq]
  | JVal.bool x, b => by cases b <;> simp [JVal.beq]
  | JVal.num x, b => by cases b <;> simp [JVal.beq]
  | JVal.str x, b => by cases b <;> simp [JVal.beq]
  | JVal.arr xs, b => by
      cases b <;> simp [JVal.beq]
      exact JVal.beqList_iff xs _
  | JVal.obj fs, b => by
      cases b <;> simp [JVal.beq]
      exact JVal.beqFields_iff fs _

theorem JVal.beqList_iff : ∀ (as bs : List JVal), (JVal.beqList as bs = true) ↔ as = bs
  | [], bs => by cases bs <;> simp [JVal.beqList]
  | a :: as, bs => by
      cases bs with
      | nil => simp [JVal.beqList]
      | cons b bs =>
        simp [JVal.beqList, Bool.and_eq_true]
        rw [JVal.beq_iff a b, JVal.beqList_iff as bs]

theorem JVal.beqFields_iff :
    ∀ (as bs : List (String × JVal)), (JVal.beqFields as bs = true) ↔ as = bs
  | [], bs => by cases bs <;> simp [JVal.beqFields]
  | (k1, v1) :: as, bs => by
      cases bs with
      | nil => simp [JVal.beqFields]
      | cons b bs =>
        obtain ⟨k2, v2⟩ := b
        simp [JVal.beqFields, Bool.and_eq_true, JVal.beq_iff v1 v2,
          JVal.beqFields_iff as bs, and_assoc]

end

instance : BEq JVal := ⟨JVal.beq⟩

instance : LawfulBEq JVal where
  eq_of_beq h := (JVal.beq_iff _ _).mp h
  rfl := (JVal.beq_iff _ _).mpr rfl

instance : DecidableEq JVal := fun a b => decidable_of_iff _ (JVal.beq_iff a b)

/-- JavaScript falsiness of a JSON value (`!v`).  Objects and arrays are
always truthy; `null`, `false`, `0` and `""` are falsy. -/
def jsFalsy : JVal → Bool
  | JVal.null => true
  | JVal.bool b => !b
  | JVal.num q => q == 0
  | JVal.str s => s == ""
  | _ => false

/-- Integer-to-string, as JavaScript prints integral numbers. -/
def intToJsStr (i : ℤ) : String := toString i

/-- `String(x)` conversion for numbers: exact for mathematical integers (the
only numeric values the engine ever stringifies in practice); non-integral
rationals are printed as `num/den`, an approximation of JS float printing. -/
def ratToJsStr (q : ℚ) : String :=
  if q.den = 1 then intToJsStr q.num else intToJsStr q.num ++ "/" ++ toString q.den

mutual

/-- JavaScript `String(x)` conversion of a JSON value. -/
def jsToStr : JVal → String
  | JVal.null => "null"
  | JVal.bool true => "true"
  | JVal.bool false => "false"
  | JVal.str s => s
  | JVal.num q => ratToJsStr q
  | JVal.arr l => jsToStrList l
  | JVal.obj _ => "[object Object]"
termination_by structural v => v

/-- `Array.prototype.toString` = `join(',')`, with `null` elements printed
as the empty string. -/
def jsToStrList : List JVal → String
  | [] => ""
  | [JVal.null] => ""
  | [x] => jsToStr x
  | JVal.null :: xs => "," ++ jsToStrList xs
  | x :: xs => jsToStr x ++ "," ++ jsToStrList xs
termination_by structural l => l

end

/-- First-match lookup in an object's field list (parsed JSON objects have
unique keys, so this is plain own-property access). -/
def lookupField : List (String × JVal) → String → Option JVal
  | [], _ => none
  | (k1, v1) :: rest, k => if k1 == k then some v1 else lookupField rest k

/-- `v.k` property access on a JSON value for the schema-shaped fields the
engine reads (non-objects have none of them). -/
def getField : JVal → String → Option JVal
  | JVal.obj fs, k => lookupField fs k
  | _, _ => none

/-- Truthiness of field `k` of `v` (`!!v.k`). -/
def truthyField (v : JVal) (k : String) : Bool :=
  match getField v k with
  | some x => !(jsFalsy x)
  | none => false

/-- `s.startsWith(p)`, computed on the character lists. -/
def strStartsWith (s p : String) : Bool := p.data.isPrefixOf s.data

/-- `split('/')` on a character list (JavaScript `String.prototype.split`
with a single-character separator: an empty string yields `[""]`). -/
def splitOnChar (c : Char) : List Char → List (List Char)
  | [] => [[]]
  | x :: xs =>
    if x == c then [] :: splitOnChar c xs
    else
      match splitOnChar c xs with
      | h :: t => (x :: h) :: t
      | [] => [[x]]

/-- One global left-to-right pass of `replace(/ab/g, r)` for a two-character
pattern, on the character list. -/
def replacePair (a b r : Char) : List Char → List Char
  | [] => []
  | [x] => [x]
  | x :: y :: rest =>
    if x == a && y == b then r :: replacePair a b r rest
    else x :: replacePair a b r (y :: rest)

/-- Decimal parse of a character list (all digits, non-empty), the model of
`String.toNat?` / a canonical JS array index. -/
def charsToNat? (l : List Char) : Option Nat :=
  if l.isEmpty then none
  else
    l.foldl
      (fun acc c =>
        match acc with
        | none => none
        | some n => if c.isDigit then some (n * 10 + (c.toNat - 48)) else none)
      (some 0)

/-- Array element access by a string key, as used by the JSON-pointer walk
(`part in record` / `record[part]`): canonical numeric indices and the
`length` property are own properties of a JS array. -/
def arrLookup (l : List JVal) (key : String) : Option JVal :=
  if key == "length" then some (JVal.num (l.length : ℚ))
  else
    match charsToNat? key.data with
    | some i => if toString i == key then l.get? i else none
    | none => none

/-- General indexed access `v[key]`, used by `schema.properties[key]`:
objects by key, arrays by index/length, strings by index/length. -/
def jsGet (v : JVal) (key : String) : Option JVal :=
  match v with
  | JVal.obj fs => lookupField fs key
  | JVal.arr l => arrLookup l key
  | JVal.str s =>
    if key == "length" then some (JVal.num (s.length : ℚ))
    else
      match charsToNat? key.data with
      | some i =>
        if toString i == key then
          (s.toList.get? i).map (fun c => JVal.str c.toString)
        else none
      | none => none
  | _ => none

/- ---------------------------------------------------------------------- -/
/- Document parse tree (jsonc-parser `Node`).                              -/
/- ---------------------------------------------------------------------- -/

inductive DocNode where
  | str (offset len : Nat) (value : String)
  | num (offset len : Nat) (value : ℚ)
  | bool (offset len : Nat) (value : Bool)
  | null (offset len : Nat)
  | obj (offset len : Nat) (children : List DocNode)
  | arr (offset len : Nat) (elems : List DocNode)
  | prop (offset len : Nat) (children : List DocNode)
deriving Repr

def DocNode.offset : DocNode → Nat
  | DocNode.str o _ _ => o
  | DocNode.num o _ _ => o
  | DocNode.bool o _ _ => o
  | DocNode.null o _ => o
  | DocNode.obj o _ _ => o
  | DocNode.arr o _ _ => o
  | DocNode.prop o _ _ => o

def DocNode.len : DocNode → Nat
  | DocNode.str _ l _ => l
  | DocNode.num _ l _ => l
  | DocNode.bool _ l _ => l
  | DocNode.null _ l => l
  | DocNode.obj _ l _ => l
  | DocNode.arr _ l _ => l
  | DocNode.prop _ l _ => l

/-- A diagnostic: source range (byte offsets), message, severity (always
`"warning"` in this engine). -/
structure Diagnostic where
  startOff : Nat
  endOff : Nat
  message : String
  severity : String
deriving DecidableEq, Repr

/-- The options the engine consumes (`ExtensionConfig`, restricted to the
field the matcher reads). -/
structure Config where
  showUnknownProperties : Bool
deriving DecidableEq, Repr

/- ---------------------------------------------------------------------- -/
/- Schema resolver (`resolveSchemaNode`, `resolvePointer`, `mergeSchemas`). -/
/- ---------------------------------------------------------------------- -/

/-- A visited-set entry: the key path of a pointer-resolved node inside the
root schema (node identity in a parse tree). -/
abbrev PtrPath := List String

/-- Unescape one JSON-pointer segment: `~1` to `/` then `~0` to `~` (two
sequential global replacement passes, in that order). -/
def unescapePart (s : String) : String :=
  String.mk (replacePair '~' '0' '~' (replacePair '~' '1' '/' s.data))

/-- The structural walk of `resolvePointer`: each step requires the current
value to be a truthy `typeof === 'object'` value (object or array) and the
segment to be one of its keys. -/
def walkPtr : JVal → List String → Option JVal
  | current, [] => some current
  | JVal.obj fs, part :: rest =>
    match lookupField fs part with
    | some nxt => walkPtr nxt rest
    | none => none
  | JVal.arr l, part :: rest =>
    match arrLookup l part with
    | some nxt => walkPtr nxt rest
    | none => none
  | _, _ :: _ => none

/-- `resolvePointer(rootSchema, ref)`, also returning the key path of the
target (its identity for the visited set). -/
def resolvePointer (rootSchema : JVal) (ref : String) : Option (PtrPath × JVal) :=
  if !(strStartsWith ref "#/") then none
  else
    let parts := (splitOnChar (Char.ofNat 47) (ref.drop 2).data).map
      (fun cs => unescapePart (String.mk cs))
    match walkPtr rootSchema parts with
    | some v => some (parts, v)
    | none => none

/-- `schema.$ref && typeof schema.$ref === 'string'`: the `$ref` branch is
taken only for a truthy (non-empty) string. -/
def getRefStr (schema : JVal) : Option String :=
  match getField schema "$ref" with
  | some (JVal.str s) => if s == "" then none else some s
  | _ => none

/-- Outcome of the `schema.allOf && schema.allOf.length > 0` test. A truthy
non-empty string also passes the test but then throws on `.map` (strings
have a `.length` but no `.map`). -/
inductive CompResult where
  | notTaken
  | entries (l : List JVal)
  | throwErr
deriving DecidableEq, Repr

def compositionEntries (schema : JVal) (key : String) : CompResult :=
  match getField schema key with
  | some (JVal.arr l) => if l.isEmpty then CompResult.notTaken else CompResult.entries l
  | some (JVal.str s) => if s == "" then CompResult.notTaken else CompResult.throwErr
  | _ => CompResult.notTaken

/-- `schema.oneOf[0]` under the guard `schema.oneOf && schema.oneOf.length > 0`
(for a non-empty string, `s[0]` is its first character). -/
def firstCompositionEntry (schema : JVal) (key : String) : Option JVal :=
  match getField schema key with
  | some (JVal.arr (e :: _)) => some e
  | some (JVal.str s) => if s == "" then none else some (JVal.str (s.take 1))
  | _ => none

/-- The insertion loop of `new Set(xs)`: an element already seen is skipped,
a new one is appended and remembered. -/
def dedupGo {α : Type} [BEq α] (seen : List α) : List α → List α
  | [] => []
  | x :: xs => if seen.contains x then dedupGo seen xs else x :: dedupGo (x :: seen) xs

/-- Keep-first-occurrence deduplication: `Array.from(new Set(xs))`. -/
def dedupKeepFirst {α : Type} [BEq α] (l : List α) : List α := dedupGo [] l

/-- Object-spread contribution `{...x}`: own enumerable properties of `x`
(fields of an object, indexed elements of an array or string, nothing for
primitives). -/
def spreadFields : JVal → List (String × JVal)
  | JVal.obj fs => fs
  | JVal.arr l => l.enum.map (fun p => (toString p.1, p.2))
  | JVal.str s => s.toList.enum.map (fun p => (toString p.1, JVal.str p.2.toString))
  | _ => []

/-- Set a field of an assoc list, JS-object style: overwrite in place if the
key exists (keys of parsed JSON objects are unique, so replacing the first
occurrence is the JS behavior), else append (insertion order preserved). -/
def setFieldFs : List (String × JVal) → String → JVal → List (String × JVal)
  | [], k, v => [(k, v)]
  | (k1, v1) :: rest, k, v =>
    if k1 == k then (k, v) :: rest else (k1, v1) :: setFieldFs rest k v

/-- `{...fs, ...extra}`. -/
def spreadInto (fs extra : List (String × JVal)) : List (String × JVal) :=
  extra.foldl (fun acc p => setFieldFs acc p.1 p.2) fs

/-- Spread of `schema.required` into an array literal: arrays and strings are
iterable, any other truthy value throws a TypeError (`none`). -/
def requiredSpread : JVal → Option (List JVal)
  | JVal.arr l => some l
  | JVal.str s => some (s.toList.map (fun c => JVal.str c.toString))
  | _ => none

/-- `if (schema.type) merged.type = schema.type`. -/
def mergeTypeStep (acc : List (String × JVal)) (schema : JVal) : List (String × JVal) :=
  match getField schema "type" with
  | some t => if jsFalsy t then acc else setFieldFs acc "type" t
  | none => acc

/-- `if (schema.properties) merged.properties = {...merged.properties,
...schema.properties}`. -/
def mergePropertiesStep (acc : List (String × JVal)) (schema : JVal) : List (String × JVal) :=
  match getField schema "properties" with
  | some p =>
    if jsFalsy p then acc
    else
      setFieldFs acc "properties"
        (JVal.obj (spreadInto
          (match lookupField acc "properties" with
          | some (JVal.obj fs) => fs
          | _ => [])
          (spreadFields p)))
  | none => acc

/-- `if (schema.required) merged.required = Array.from(new Set([...(merged.required
?? []), ...schema.required]))`; a truthy non-iterable `required` throws. -/
def mergeRequiredStep (acc : List (String × JVal)) (schema : JVal) :
    Option (List (String × JVal)) :=
  match getField schema "required" with
  | some r =>
    if jsFalsy r then some acc
    else
      match requiredSpread r with
      | some newElems =>
        some (setFieldFs acc "required"
          (JVal.arr (dedupKeepFirst
            ((match lookupField acc "required" with
              | some (JVal.arr l) => l
              | _ => []) ++ newElems))))
      | none => none
  | none => some acc

/-- `if (schema.items) merged.items = schema.items`. -/
def mergeItemsStep (acc : List (String × JVal)) (schema : JVal) : List (String × JVal) :=
  match getField schema "items" with
  | some it => if jsFalsy it then acc else setFieldFs acc "items" it
  | none => acc

/-- `if (schema.additionalProperties !== undefined) merged.additionalProperties
= schema.additionalProperties` (note: `!==`, not truthiness). -/
def mergeApStep (acc : List (String × JVal)) (schema : JVal) : List (String × JVal) :=
  match getField schema "additionalProperties" with
  | some ap => setFieldFs acc "additionalProperties" ap
  | none => acc

/-- One iteration of the `mergeSchemas` fold (the merged accumulator is kept
as its field list).  `none` models a thrown TypeError. -/
def mergeStep (acc : List (String × JVal)) (schema : JVal) : Option (List (String × JVal)) :=
  if jsFalsy schema then some acc
  else
    match mergeRequiredStep (mergePropertiesStep (mergeTypeStep acc schema) schema) schema with
    | none => none
    | some a3 => some (mergeApStep (mergeItemsStep a3 schema) schema)

/-- `mergeSchemas`: `some none` is a returned `undefined` (empty input),
`none` a thrown TypeError. -/
def mergeSchemas (schemas : List JVal) : Option (Option JVal) :=
  if schemas.isEmpty then some none
  else
    match schemas.foldlM mergeStep [] with
    | none => none
    | some fs => some (some (JVal.obj fs))

/-- `resolveSchemaNode(schema, rootSchema, seen)` with explicit fuel.
`none` = abnormal (out of fuel, modelling the source's non-termination /
stack overflow, or a thrown TypeError); `some none` = returned `undefined`;
`some (some v)` = returned node `v`. -/
def resolveSchemaNodeF : Nat → JVal → JVal → List PtrPath → Option (Option JVal)
  | 0, _, _, _ => none
  | Nat.succ n, schema, rootSchema, seen =>
    match getRefStr schema with
    | some ref =>
      if !(strStartsWith ref "#") then some none
      else
        match resolvePointer rootSchema ref with
        | none => some none
        | some (p, v) =>
          if jsFalsy v || seen.contains p then some (some v)
          else resolveSchemaNodeF n v rootSchema (p :: seen)
    | none =>
      match compositionEntries schema "allOf" with
      | CompResult.throwErr => none
      | CompResult.entries l =>
        match l.mapM (fun e => resolveSchemaNodeF n e rootSchema []) with
        | none => none
        | some results =>
          mergeSchemas ((results.filterMap id).filter (fun v => !(jsFalsy v)))
      | CompResult.notTaken =>
        match firstCompositionEntry schema "oneOf" with
        | some e => resolveSchemaNodeF n e rootSchema seen
        | none =>
          match firstCompositionEntry schema "anyOf" with
          | some e => resolveSchemaNodeF n e rootSchema seen
          | none => some (some schema)
termination_by structural n s r l => n

/- ---------------------------------------------------------------------- -/
/- Tree matcher helpers.                                                   -/
/- ---------------------------------------------------------------------- -/

structure PropertySchemaInfo where
  schema : Option JVal
  isKnown : Bool
deriving DecidableEq, Repr

/-- The `additionalProperties` dispatch of `getPropertySchemaInfo`:
`=== true` or absent is unknown; a truthy `typeof 'object'` value (object or
array) is a known property schema; everything else (notably `=== false`) is
unknown with no schema. -/
def additionalPropertiesInfo : Option JVal → PropertySchemaInfo
  | none => { schema := none, isKnown := false }
  | some (JVal.bool true) => { schema := none, isKnown := false }
  | some (JVal.obj fs) => { schema := some (JVal.obj fs), isKnown := true }
  | some (JVal.arr l) => { schema := some (JVal.arr l), isKnown := true }
  | some _ => { schema := none, isKnown := false }

/-- `getPropertySchemaInfo(schema, key)`:
1. `schema.properties && schema.properties[key]` (both truthy) is a known
   property with that schema — the bracket access is modelled here as an
   own-property lookup; the source additionally finds the inherited
   `Object.prototype` members (`toString`, `constructor`, … — see
   `objectPrototypeKeys` and `objBracketTruthy` further down, which model
   the access faithfully and exhibit the divergence);
2. `additionalProperties === true || undefined` is unknown;
3. a truthy `typeof 'object'` `additionalProperties` is known with that
   schema;
4. anything else (notably `=== false`) is unknown. -/
def getPropertySchemaInfo (schema : JVal) (key : String) : PropertySchemaInfo :=
  let propHit : Option JVal :=
    match getField schema "properties" with
    | some p =>
      if jsFalsy p then none
      else
        match jsGet p key with
        | some v => if jsFalsy v then none else some v
        | none => none
    | none => none
  match propHit with
  | some v => { schema := some v, isKnown := true }
  | none => additionalPropertiesInfo (getField schema "additionalProperties")

/-- `resolveArrayItemSchema(items, index)`: falsy `items` is no constraint;
an array is `items[index] ?? items[items.length - 1]` (the nullish fallback
also fires when the entry at `index` is JSON `null`); anything else applies
to every index. -/
def resolveArrayItemSchema (items : Option JVal) (index : Nat) : Option JVal :=
  match items with
  | none => none
  | some v =>
    if jsFalsy v then none
    else
      match v with
      | JVal.arr l =>
        match l.get? index with
        | some JVal.null => l.get? (l.length - 1)
        | some e => some e
        | none => l.get? (l.length - 1)
      | _ => some v

/-- `toTypeArray(type)`: falsy is `[]`, an array is itself, anything else a
singleton. -/
def toTypeArray (t : Option JVal) : List JVal :=
  match t with
  | none => []
  | some v =>
    if jsFalsy v then []
    else
      match v with
      | JVal.arr l => l
      | _ => [v]

def isObjectSchema (schema : JVal) : Bool :=
  (toTypeArray (getField schema "type")).contains (JVal.str "object")
    || truthyField schema "properties"

def isArraySchema (schema : JVal) : Bool :=
  (toTypeArray (getField schema "type")).contains (JVal.str "array")
    || truthyField schema "items"

/-- `getSchemaTypeCandidates`: the explicit `type` set, or the structurally
inferred one (`properties`/`required` imply object, `items` implies array). -/
def getSchemaTypeCandidates (schema : JVal) : List JVal :=
  let types := toTypeArray (getField schema "type")
  if types.isEmpty then
    if truthyField schema "properties" || truthyField schema "required" then [JVal.str "object"]
    else if truthyField schema "items" then [JVal.str "array"]
    else []
  else types

/-- `isNodeTypeCompatible`: empty expected set is always compatible; a number
node is compatible with `integer` only when its decoded value is a
mathematical integer; a `property` node (the `default` case) is compatible. -/
def isNodeTypeCompatible (node : DocNode) (schema : JVal) : Bool :=
  let expected := getSchemaTypeCandidates schema
  if expected.isEmpty then true
  else
    match node with
    | DocNode.str _ _ _ => expected.contains (JVal.str "string")
    | DocNode.num _ _ q =>
      if expected.contains (JVal.str "number") then true
      else if expected.contains (JVal.str "integer") then q.den == 1
      else false
    | DocNode.bool _ _ _ => expected.contains (JVal.str "boolean")
    | DocNode.null _ _ => expected.contains (JVal.str "null")
    | DocNode.obj _ _ _ => expected.contains (JVal.str "object")
    | DocNode.arr _ _ _ => expected.contains (JVal.str "array")
    | DocNode.prop _ _ _ => true

def unknownPropertyMessage (key : String) : String :=
  "Unknown property \"" ++ key ++ "\" (not in schema)."

def missingRequiredMessage (key : String) : String :=
  "Missing required property \"" ++ key ++ "\"."

def typeMismatchMessage (label : String) : String :=
  "Type mismatch: expected " ++ label ++ "."

def createUnknownPropertyDiagnostic (keyNode : DocNode) (key : String) : Diagnostic :=
  { startOff := keyNode.offset, endOff := keyNode.offset + keyNode.len,
    message := unknownPropertyMessage key, severity := "warning" }

/-- The range is `[objectNode.offset, objectNode.offset + 1)` — one character
at the object's opening, independent of the object's length. -/
def createMissingRequiredDiagnostic (objectNode : DocNode) (key : String) : Diagnostic :=
  { startOff := objectNode.offset, endOff := objectNode.offset + 1,
    message := missingRequiredMessage key, severity := "warning" }

/-- `Array.prototype.join`'s element rule: a `null` (or `undefined`) element
contributes the empty string, while every other element is converted by
`String`.  This differs from plain `String(x)`, which renders `null` as the
word `null`. -/
def joinElemStr : JVal → String
  | JVal.null => ""
  | v => jsToStr v

/-- `expected.join(' | ')` with the label `unknown` for an empty list.  The
join renders a literal `null` entry of `schema.type` as the empty string. -/
def createTypeMismatchDiagnostic (node : DocNode) (schema : JVal) : Diagnostic :=
  let expected := getSchemaTypeCandidates schema
  let expectedLabel :=
    if expected.isEmpty then "unknown"
    else String.intercalate " | " (expected.map joinElemStr)
  { startOff := node.offset, endOff := node.offset + node.len,
    message := typeMismatchMessage expectedLabel, severity := "warning" }

/-- `new Set((resolvedSchema.required ?? []).map(item => String(item)))`, in
iteration (= insertion) order.  A non-nullish `required` that is not an array
has no `.map` and throws (`none`). -/
def requiredKeyList (rs : JVal) : Option (List String) :=
  match getField rs "required" with
  | none => some []
  | some JVal.null => some []
  | some (JVal.arr l) => some (dedupKeepFirst (l.map jsToStr))
  | some _ => none

/- ---------------------------------------------------------------------- -/
/- Tree matcher (`visitNodeForDiagnostics`).                               -/
/- ---------------------------------------------------------------------- -/

/-- The schema- and key-dependent part of one property-loop iteration, given
the already-computed `PropertySchemaInfo` and the recursive visitor for the
value node. -/
def visitKnownPropertyWith (visit : DocNode → JVal → Option (List Diagnostic))
    (keyNode : DocNode) (key : String) (valueNode : DocNode)
    (info : PropertySchemaInfo) (cfg : Config) : Option (List Diagnostic × List String) :=
  match info.schema with
  | some s =>
    match visit valueNode s with
    | none => none
    | some ds => some (ds, [key])
  | none =>
    if cfg.showUnknownProperties && !info.isKnown then
      some ([createUnknownPropertyDiagnostic keyNode key], [key])
    else some ([], [key])

/-- One iteration of the property loop: the diagnostics contributed by one
child of an object node, and the keys it adds to the present-key set.  Skips
non-property children, pairs with fewer than two children, non-string or
empty (falsy) keys, and the reserved key `$schema`. -/
def visitPropertyPairWith (visit : DocNode → JVal → Option (List Diagnostic))
    (p : DocNode) (rs : JVal) (cfg : Config) : Option (List Diagnostic × List String) :=
  match p with
  | DocNode.prop _ _ (DocNode.str ko kl key :: valueNode :: _) =>
    if key == "" then some ([], [])
    else if key == "$schema" then some ([], [])
    else
      visitKnownPropertyWith visit (DocNode.str ko kl key) key valueNode
        (getPropertySchemaInfo rs key) cfg
  | _ => some ([], [])

/-- The property loop of the object branch: accumulates diagnostics and the
present-key set in document order. -/
def visitPropertiesWith (visit : DocNode → JVal → Option (List Diagnostic)) :
    List DocNode → JVal → Config → Option (List Diagnostic × List String)
  | [], _, _ => some ([], [])
  | p :: rest, rs, cfg =>
    match visitPropertyPairWith visit p rs cfg, visitPropertiesWith visit rest rs cfg with
    | some (d1, k1), some (d2, k2) => some (d1 ++ d2, k1 ++ k2)
    | _, _ => none

/-- The element loop of the array branch. -/
def visitArrayItemsWith (visit : DocNode → JVal → Option (List Diagnostic)) :
    List DocNode → Nat → Option JVal → Option (List Diagnostic)
  | [], _, _ => some []
  | e :: rest, index, items =>
    let headDs : Option (List Diagnostic) :=
      match resolveArrayItemSchema items index with
      | some s => if jsFalsy s then some [] else visit e s
      | none => some []
    match headDs, visitArrayItemsWith visit rest (index + 1) items with
    | some d1, some d2 => some (d1 ++ d2)
    | _, _ => none

/-- `visitNodeForDiagnostics(node, schema, rootSchema, document, diagnostics,
config)`, returning the diagnostics appended by this call.  `rfuel` feeds
each `resolveSchemaNode` invocation (the source starts each with a fresh
`seen` set); `dfuel` bounds the recursion depth into the document tree (the
source recurses structurally on the finite document, so any `dfuel` at least
the document depth is enough); `none` propagates an abnormal outcome. -/
def visitNodeForDiagnostics (rfuel : Nat) :
    Nat → DocNode → JVal → JVal → Config → Option (List Diagnostic)
  | 0, _, _, _, _ => none
  | Nat.succ dfuel, node, schema, rootSchema, cfg =>
    if jsFalsy schema then some []
    else
      match resolveSchemaNodeF rfuel schema rootSchema [] with
      | none => none
      | some none => some []
      | some (some rs) =>
        if jsFalsy rs then some []
        else if !(isNodeTypeCompatible node rs) then some [createTypeMismatchDiagnostic node rs]
        else
          match node with
          | DocNode.obj _ _ children =>
            if !(isObjectSchema rs) then some []
            else
              match requiredKeyList rs with
              | none => none
              | some reqKeys =>
                match visitPropertiesWith
                    (fun nd s => visitNodeForDiagnostics rfuel dfuel nd s rootSchema cfg)
                    children rs cfg with
                | none => none
                | some (ds, present) =>
                  some (ds ++ (reqKeys.filter
                      (fun k => !(k == "$schema") && !(present.contains k))).map
                    (fun k => createMissingRequiredDiagnostic node k))
          | DocNode.arr _ _ elems =>
            if !(isArraySchema rs) then some []
            else
              visitArrayItemsWith
                (fun nd s => visitNodeForDiagnostics rfuel dfuel nd s rootSchema cfg)
                elems 0 (getField rs "items")
          | _ => some []

/-- `collectDiagnostics(root, schema, document, config)`. -/
def collectDiagnostics (rfuel dfuel : Nat) (root : DocNode) (schema : JVal)
    (cfg : Config) : Option (List Diagnostic) :=
  match resolveSchemaNodeF rfuel schema schema [] with
  | none => none
  | some none => some []
  | some (some rr) =>
    if jsFalsy rr then some []
    else visitNodeForDiagnostics rfuel dfuel root rr schema cfg

/- ---------------------------------------------------------------------- -/
/- Field-surgery helpers for relating schema variants.                     -/
/- ---------------------------------------------------------------------- -/

/-- Overwrite (or add) one field of a JSON object; other values unchanged. -/
def setField (v : JVal) (k : String) (x : JVal) : JVal :=
  match v with
  | JVal.obj fs => JVal.obj (setFieldFs fs k x)
  | _ => v

/-- Drop one field of a JSON object; other values unchanged. -/
def removeField (v : JVal) (k : String) : JVal :=
  match v with
  | JVal.obj fs => JVal.obj (fs.filter (fun p => !(p.1 == k)))
  | _ => v

theorem lookupField_append (fs gs : List (String × JVal)) (k : String) :
    lookupField (fs ++ gs) k =
      match lookupField fs k with
      | some x => some x
      | none => lookupField gs k := by
  induction fs with
  | nil => simp [lookupField]
  | cons p rest ih =>
    obtain ⟨k1, v1⟩ := p
    by_cases h : k1 = k
    · simp [lookupField, h]
    · simp only [List.cons_append, lookupField, beq_iff_eq, if_neg h]
      exact ih

theorem lookupField_setFieldFs_self (fs : List (String × JVal)) (k : String) (v : JVal) :
    lookupField (setFieldFs fs k v) k = some v := by
  induction fs with
  | nil => simp [setFieldFs, lookupField]
  | cons p rest ih =>
    obtain ⟨k1, v1⟩ := p
    by_cases h : k1 = k
    · simp [setFieldFs, lookupField, h]
    · simp [setFieldFs, lookupField, h, ih]

theorem lookupField_setFieldFs_ne (fs : List (String × JVal)) (k kq : String) (v : JVal)
    (h : kq ≠ k) : lookupField (setFieldFs fs k v) kq = lookupField fs kq := by
  have hne : ¬(k = kq) := fun hq => h hq.symm
  induction fs with
  | nil => simp [setFieldFs, lookupField, hne]
  | cons p rest ih =>
    obtain ⟨k1, v1⟩ := p
    by_cases h1 : k1 = k
    · simp [setFieldFs, lookupField, h1, hne]
    · by_cases h2 : k1 = kq
      · simp [setFieldFs, lookupField, h1, h2, h]
      · simp [setFieldFs, lookupField, h1, h2, ih]

theorem lookupField_filter_ne (fs : List (String × JVal)) (k kq : String)
    (h : kq ≠ k) :
    lookupField (fs.filter (fun p => !(p.1 == k))) kq = lookupField fs kq := by
  induction fs with
  | nil => simp
  | cons p rest ih =>
    obtain ⟨k1, v1⟩ := p
    by_cases h1 : k1 = k
    · have h2 : ¬(k = kq) := fun hq => h hq.symm
      simp [List.filter_cons, lookupField, h1, h2, ih]
    · by_cases h2 : k1 = kq
      · simp [List.filter_cons, lookupField, h1, h2, h]
      · simp [List.filter_cons, lookupField, h1, h2, ih]

theorem lookupField_filter_self (fs : List (String × JVal)) (k : String) :
    lookupField (fs.filter (fun p => !(p.1 == k))) k = none := by
  induction fs with
  | nil => simp [lookupField]
  | cons p rest ih =>
    obtain ⟨k1, v1⟩ := p
    by_cases h1 : k1 = k
    · simp [List.filter_cons, h1, ih]
    · simp [List.filter_cons, lookupField, h1, ih]

theorem getField_setField_self (fs : List (String × JVal)) (k : String) (v : JVal) :
    getField (setField (JVal.obj fs) k v) k = some v := by
  simp only [setField, getField]
  exact lookupField_setFieldFs_self fs k v

theorem getField_setField_ne (S : JVal) (k kq : String) (v : JVal) (h : kq ≠ k) :
    getField (setField S k v) kq = getField S kq := by
  cases S <;> simp only [setField, getField]
  exact lookupField_setFieldFs_ne _ k kq v h

theorem getField_removeField_self (S : JVal) (k : String) :
    getField (removeField S k) k = none := by
  cases S <;> simp only [removeField, getField]
  exact lookupField_filter_self _ k

theorem getField_removeField_ne (S : JVal) (k kq : String) (h : kq ≠ k) :
    getField (removeField S k) kq = getField S kq := by
  cases S <;> simp only [removeField, getField]
  exact lookupField_filter_ne _ k kq h

theorem jsFalsy_setField (S : JVal) (k : String) (v : JVal) :
    jsFalsy (setField S k v) = jsFalsy S := by
  cases S <;> rfl

theorem jsFalsy_removeField (S : JVal) (k : String) :
    jsFalsy (removeField S k) = jsFalsy S := by
  cases S <;> rfl

/- ---------------------------------------------------------------------- -/
/- Congruence: the matcher only looks at a schema node through a fixed set -/
/- of observations; schemas agreeing on them produce identical behavior.   -/
/- ---------------------------------------------------------------------- -/

theorem getRefStr_congr {S1 S2 : JVal} (h : getField S1 "$ref" = getField S2 "$ref") :
    getRefStr S1 = getRefStr S2 := by
  unfold getRefStr; rw [h]

theorem compositionEntries_congr {S1 S2 : JVal} (key : String)
    (h : getField S1 key = getField S2 key) :
    compositionEntries S1 key = compositionEntries S2 key := by
  unfold compositionEntries; rw [h]

theorem firstCompositionEntry_congr {S1 S2 : JVal} (key : String)
    (h : getField S1 key = getField S2 key) :
    firstCompositionEntry S1 key = firstCompositionEntry S2 key := by
  unfold firstCompositionEntry; rw [h]

theorem truthyField_congr {S1 S2 : JVal} (key : String)
    (h : getField S1 key = getField S2 key) :
    truthyField S1 key = truthyField S2 key := by
  unfold truthyField; rw [h]

theorem getSchemaTypeCandidates_congr {S1 S2 : JVal}
    (htype : getField S1 "type" = getField S2 "type")
    (hprops : getField S1 "properties" = getField S2 "properties")
    (hreq : truthyField S1 "required" = truthyField S2 "required")
    (hitems : getField S1 "items" = getField S2 "items") :
    getSchemaTypeCandidates S1 = getSchemaTypeCandidates S2 := by
  unfold getSchemaTypeCandidates
  rw [htype, hreq, truthyField_congr "properties" hprops, truthyField_congr "items" hitems]

theorem isObjectSchema_congr {S1 S2 : JVal}
    (htype : getField S1 "type" = getField S2 "type")
    (hprops : getField S1 "properties" = getField S2 "properties") :
    isObjectSchema S1 = isObjectSchema S2 := by
  unfold isObjectSchema
  rw [htype, truthyField_congr "properties" hprops]

theorem isArraySchema_congr {S1 S2 : JVal}
    (htype : getField S1 "type" = getField S2 "type")
    (hitems : getField S1 "items" = getField S2 "items") :
    isArraySchema S1 = isArraySchema S2 := by
  unfold isArraySchema
  rw [htype, truthyField_congr "items" hitems]

theorem isNodeTypeCompatible_congr {S1 S2 : JVal} (node : DocNode)
    (h : getSchemaTypeCandidates S1 = getSchemaTypeCandidates S2) :
    isNodeTypeCompatible node S1 = isNodeTypeCompatible node S2 := by
  unfold isNodeTypeCompatible; rw [h]

theorem createTypeMismatchDiagnostic_congr {S1 S2 : JVal} (node : DocNode)
    (h : getSchemaTypeCandidates S1 = getSchemaTypeCandidates S2) :
    createTypeMismatchDiagnostic node S1 = createTypeMismatchDiagnostic node S2 := by
  unfold createTypeMismatchDiagnostic; rw [h]

/-- The `additionalProperties` values that land in the "unknown, no schema"
class of `getPropertySchemaInfo` (everything except a truthy
`typeof 'object'` value). -/
def apUnknownClass : Option JVal → Bool
  | none => true
  | some (JVal.obj _) => false
  | some (JVal.arr _) => false
  | some _ => true

theorem additionalPropertiesInfo_of_unknownClass (ap : Option JVal)
    (h : apUnknownClass ap = true) :
    additionalPropertiesInfo ap = { schema := none, isKnown := false } := by
  cases ap with
  | none => rfl
  | some v =>
    cases v with
    | bool b => cases b <;> rfl
    | null => rfl
    | num q => rfl
    | str s => rfl
    | arr l => simp [apUnknownClass] at h
    | obj fs => simp [apUnknownClass] at h

theorem getPropertySchemaInfo_congr {S1 S2 : JVal} (key : String)
    (hprops : getField S1 "properties" = getField S2 "properties")
    (hap : getField S1 "additionalProperties" = getField S2 "additionalProperties"
      ∨ (apUnknownClass (getField S1 "additionalProperties") = true
        ∧ apUnknownClass (getField S2 "additionalProperties") = true)) :
    getPropertySchemaInfo S1 key = getPropertySchemaInfo S2 key := by
  have hcls : additionalPropertiesInfo (getField S1 "additionalProperties")
      = additionalPropertiesInfo (getField S2 "additionalProperties") := by
    rcases hap with hap | ⟨h1, h2⟩
    · rw [hap]
    · rw [additionalPropertiesInfo_of_unknownClass _ h1,
        additionalPropertiesInfo_of_unknownClass _ h2]
  unfold getPropertySchemaInfo
  rw [hprops, hcls]

theorem requiredKeyList_congr {S1 S2 : JVal}
    (h : getField S1 "required" = getField S2 "required") :
    requiredKeyList S1 = requiredKeyList S2 := by
  unfold requiredKeyList; rw [h]

/-- Two schema values the engine cannot tell apart: they agree on every
observation the resolver and matcher perform on a schema node. -/
structure MatchEquiv (S1 S2 : JVal) : Prop where
  falsy : jsFalsy S1 = jsFalsy S2
  ref : getRefStr S1 = getRefStr S2
  allOf : compositionEntries S1 "allOf" = compositionEntries S2 "allOf"
  oneOf : firstCompositionEntry S1 "oneOf" = firstCompositionEntry S2 "oneOf"
  anyOf : firstCompositionEntry S1 "anyOf" = firstCompositionEntry S2 "anyOf"
  cands : getSchemaTypeCandidates S1 = getSchemaTypeCandidates S2
  objS : isObjectSchema S1 = isObjectSchema S2
  arrS : isArraySchema S1 = isArraySchema S2
  items : getField S1 "items" = getField S2 "items"
  props : ∀ k, getPropertySchemaInfo S1 k = getPropertySchemaInfo S2 k
  reqKeys : (requiredKeyList S1).map (fun l => l.filter (fun k => !(k == "$schema")))
    = (requiredKeyList S2).map (fun l => l.filter (fun k => !(k == "$schema")))

/-- Resolution of match-equivalent schemas: either the two runs return the
very same result (the `$ref`/`allOf`/`oneOf`/`anyOf` branches never look at
the node again), or both nodes are concrete and each run returns its own
node. -/
theorem resolveSchemaNodeF_matchEquiv {S1 S2 : JVal} (h : MatchEquiv S1 S2)
    (n : Nat) (root : JVal) (seen : List PtrPath) :
    resolveSchemaNodeF n S1 root seen = resolveSchemaNodeF n S2 root seen ∨
      (resolveSchemaNodeF n S1 root seen = some (some S1) ∧
        resolveSchemaNodeF n S2 root seen = some (some S2)) := by
  cases n with
  | zero => left; rfl
  | succ n =>
    simp only [resolveSchemaNodeF]
    rw [h.ref]
    cases getRefStr S2 with
    | some ref => left; rfl
    | none =>
      rw [h.allOf]
      cases compositionEntries S2 "allOf" with
      | throwErr => left; rfl
      | entries l => left; rfl
      | notTaken =>
        rw [h.oneOf]
        cases firstCompositionEntry S2 "oneOf" with
        | some e => left; rfl
        | none =>
          rw [h.anyOf]
          cases firstCompositionEntry S2 "anyOf" with
          | some e => left; rfl
          | none => right; exact ⟨rfl, rfl⟩

theorem visitKnownPropertyWith_congr (visit : DocNode → JVal → Option (List Diagnostic))
    (keyNode : DocNode) (key : String) (valueNode : DocNode)
    {i1 i2 : PropertySchemaInfo} (cfg : Config) (h : i1 = i2) :
    visitKnownPropertyWith visit keyNode key valueNode i1 cfg
      = visitKnownPropertyWith visit keyNode key valueNode i2 cfg := by
  rw [h]

theorem visitPropertyPairWith_congr (visit : DocNode → JVal → Option (List Diagnostic))
    (p : DocNode) {S1 S2 : JVal} (cfg : Config)
    (h : ∀ k, getPropertySchemaInfo S1 k = getPropertySchemaInfo S2 k) :
    visitPropertyPairWith visit p S1 cfg = visitPropertyPairWith visit p S2 cfg := by
  cases p with
  | prop o l children =>
    cases children with
    | nil => rfl
    | cons kn rest1 =>
      cases rest1 with
      | nil => cases kn <;> rfl
      | cons vn rest =>
        cases kn with
        | str ko kl key => simp only [visitPropertyPairWith, h key]
        | num a b c => rfl
        | bool a b c => rfl
        | null a b => rfl
        | obj a b c => rfl
        | arr a b c => rfl
        | prop a b c => rfl
  | str a b c => rfl
  | num a b c => rfl
  | bool a b c => rfl
  | null a b => rfl
  | obj a b c => rfl
  | arr a b c => rfl

theorem visitPropertiesWith_congr (visit : DocNode → JVal → Option (List Diagnostic))
    (props : List DocNode) {S1 S2 : JVal} (cfg : Config)
    (h : ∀ k, getPropertySchemaInfo S1 k = getPropertySchemaInfo S2 k) :
    visitPropertiesWith visit props S1 cfg = visitPropertiesWith visit props S2 cfg := by
  induction props with
  | nil => rfl
  | cons p rest ih =>
    simp only [visitPropertiesWith, visitPropertyPairWith_congr visit p cfg h, ih]

theorem dedupGo_mem {α : Type} [BEq α] [LawfulBEq α] (l : List α) :
    ∀ (seen : List α) (a : α), a ∈ dedupGo seen l ↔ (a ∈ l ∧ ¬ a ∈ seen) := by
  induction l with
  | nil => intro seen a; simp [dedupGo]
  | cons x xs ih =>
    intro seen a
    by_cases hc : seen.contains x = true
    · have hx : x ∈ seen := by simpa using hc
      simp only [dedupGo, hc, if_true, ih, List.mem_cons]
      constructor
      · rintro ⟨h1, h2⟩
        exact ⟨Or.inr h1, h2⟩
      · rintro ⟨h1 | h1, h2⟩
        · exact absurd (h1 ▸ hx) h2
        · exact ⟨h1, h2⟩
    · have hxs : ¬ x ∈ seen := by simpa using hc
      by_cases hax : a = x
      · subst hax
        simp [dedupGo, hc, ih, hxs]
      · simp [dedupGo, hc, ih, hax, hxs]

theorem dedupKeepFirst_mem {α : Type} [BEq α] [LawfulBEq α] (l : List α) (a : α) :
    a ∈ dedupKeepFirst l ↔ a ∈ l := by
  simp [dedupKeepFirst, dedupGo_mem]

theorem filter_reqKeys_split (l : List String) (present : List String) :
    l.filter (fun k => !(k == "$schema") && !(present.contains k))
      = (l.filter (fun k => !(k == "$schema"))).filter (fun k => !(present.contains k)) := by
  rw [List.filter_filter]
  apply List.filter_congr
  intro a _
  rw [Bool.and_comm]

/-- The matcher cannot distinguish match-equivalent schemas: one visit step
produces identical output (and the recursive calls receive identical
arguments). -/
theorem visitNodeForDiagnostics_matchEquiv {S1 S2 : JVal} (h : MatchEquiv S1 S2)
    (rfuel dfuel : Nat) (node : DocNode) (root : JVal) (cfg : Config) :
    visitNodeForDiagnostics rfuel dfuel node S1 root cfg
      = visitNodeForDiagnostics rfuel dfuel node S2 root cfg := by
  cases dfuel with
  | zero => rfl
  | succ dfuel =>
    simp only [visitNodeForDiagnostics]
    rw [h.falsy]
    by_cases hf : jsFalsy S2 = true
    · simp only [hf, if_true]
    · simp only [hf, Bool.false_eq_true, if_false]
      rcases resolveSchemaNodeF_matchEquiv h rfuel root [] with heq | ⟨h1, h2⟩
      · rw [heq]
      · rw [h1, h2]
        simp only [h.falsy, hf, Bool.false_eq_true, if_false,
          isNodeTypeCompatible_congr node h.cands,
          createTypeMismatchDiagnostic_congr node h.cands]
        by_cases hcompat : isNodeTypeCompatible node S2 = true
        · simp only [hcompat, Bool.not_true, Bool.false_eq_true, if_false]
          cases node with
          | obj o l children =>
            rw [h.objS]
            by_cases hobj : isObjectSchema S2 = true
            · simp only [hobj, Bool.not_true, Bool.false_eq_true, if_false]
              have hreq := h.reqKeys
              cases hr1 : requiredKeyList S1 with
              | none =>
                cases hr2 : requiredKeyList S2 with
                | none => rfl
                | some l2 => rw [hr1, hr2] at hreq; simp at hreq
              | some l1 =>
                cases hr2 : requiredKeyList S2 with
                | none => rw [hr1, hr2] at hreq; simp at hreq
                | some l2 =>
                  rw [hr1, hr2] at hreq
                  simp at hreq
                  rw [visitPropertiesWith_congr _ children cfg h.props]
                  cases visitPropertiesWith
                      (fun nd s => visitNodeForDiagnostics rfuel dfuel nd s root cfg)
                      children S2 cfg with
                  | none => rfl
                  | some r =>
                    obtain ⟨ds, present⟩ := r
                    simp only []
                    rw [filter_reqKeys_split l1 present, filter_reqKeys_split l2 present, hreq]
            · simp only [hobj, Bool.not_false, if_true]
          | arr o l elems =>
            rw [h.arrS, h.items]
          | str a b c => rfl
          | num a b c => rfl
          | bool a b c => rfl
          | null a b => rfl
          | prop a b c => rfl
        · simp only [hcompat, Bool.not_false, if_true]

theorem MatchEquiv.refl (S : JVal) : MatchEquiv S S :=
  ⟨rfl, rfl, rfl, rfl, rfl, rfl, rfl, rfl, rfl, fun _ => rfl, rfl⟩

/-- Build a `MatchEquiv` from agreement of the raw schema fields (with the
`additionalProperties` and `required` observations suitably generalized). -/
theorem matchEquiv_of_getField {S1 S2 : JVal}
    (hfalsy : jsFalsy S1 = jsFalsy S2)
    (href : getField S1 "$ref" = getField S2 "$ref")
    (hallOf : getField S1 "allOf" = getField S2 "allOf")
    (honeOf : getField S1 "oneOf" = getField S2 "oneOf")
    (hanyOf : getField S1 "anyOf" = getField S2 "anyOf")
    (htype : getField S1 "type" = getField S2 "type")
    (hprops : getField S1 "properties" = getField S2 "properties")
    (htruthyReq : truthyField S1 "required" = truthyField S2 "required")
    (hreqKeys : (requiredKeyList S1).map (fun l => l.filter (fun k => !(k == "$schema")))
      = (requiredKeyList S2).map (fun l => l.filter (fun k => !(k == "$schema"))))
    (hitems : getField S1 "items" = getField S2 "items")
    (hap : getField S1 "additionalProperties" = getField S2 "additionalProperties"
      ∨ (apUnknownClass (getField S1 "additionalProperties") = true
        ∧ apUnknownClass (getField S2 "additionalProperties") = true)) :
    MatchEquiv S1 S2 := by
  constructor
  · exact hfalsy
  · exact getRefStr_congr href
  · exact compositionEntries_congr _ hallOf
  · exact firstCompositionEntry_congr _ honeOf
  · exact firstCompositionEntry_congr _ hanyOf
  · exact getSchemaTypeCandidates_congr htype hprops htruthyReq hitems
  · exact isObjectSchema_congr htype hprops
  · exact isArraySchema_congr htype hitems
  · exact hitems
  · intro k; exact getPropertySchemaInfo_congr k hprops hap
  · exact hreqKeys

theorem matchEquiv_setAp_removeAp (S : JVal) (v : JVal)
    (hv : apUnknownClass (some v) = true) :
    MatchEquiv (setField S "additionalProperties" v) (removeField S "additionalProperties") := by
  cases S with
  | obj fs =>
    apply matchEquiv_of_getField
    · rw [jsFalsy_setField, jsFalsy_removeField]
    · rw [getField_setField_ne _ _ _ _ (by decide), getField_removeField_ne _ _ _ (by decide)]
    · rw [getField_setField_ne _ _ _ _ (by decide), getField_removeField_ne _ _ _ (by decide)]
    · rw [getField_setField_ne _ _ _ _ (by decide), getField_removeField_ne _ _ _ (by decide)]
    · rw [getField_setField_ne _ _ _ _ (by decide), getField_removeField_ne _ _ _ (by decide)]
    · rw [getField_setField_ne _ _ _ _ (by decide), getField_removeField_ne _ _ _ (by decide)]
    · rw [getField_setField_ne _ _ _ _ (by decide), getField_removeField_ne _ _ _ (by decide)]
    · apply truthyField_congr
      rw [getField_setField_ne _ _ _ _ (by decide), getField_removeField_ne _ _ _ (by decide)]
    · rw [@requiredKeyList_congr (setField (JVal.obj fs) "additionalProperties" v)
        (JVal.obj fs) (by rw [getField_setField_ne _ _ _ _ (by decide)]),
        @requiredKeyList_congr (removeField (JVal.obj fs) "additionalProperties")
        (JVal.obj fs) (by rw [getField_removeField_ne _ _ _ (by decide)])]
    · rw [getField_setField_ne _ _ _ _ (by decide), getField_removeField_ne _ _ _ (by decide)]
    · right
      constructor
      · rw [getField_setField_self]
        exact hv
      · rw [getField_removeField_self]
        rfl
  | null => exact MatchEquiv.refl _
  | bool b => exact MatchEquiv.refl _
  | num q => exact MatchEquiv.refl _
  | str s => exact MatchEquiv.refl _
  | arr l => exact MatchEquiv.refl _

theorem matchEquiv_setAp_setAp (S : JVal) (v w : JVal)
    (hv : apUnknownClass (some v) = true) (hw : apUnknownClass (some w) = true) :
    MatchEquiv (setField S "additionalProperties" v) (setField S "additionalProperties" w) := by
  cases S with
  | obj fs =>
    apply matchEquiv_of_getField
    · rw [jsFalsy_setField, jsFalsy_setField]
    · rw [getField_setField_ne _ _ _ _ (by decide), getField_setField_ne _ _ _ _ (by decide)]
    · rw [getField_setField_ne _ _ _ _ (by decide), getField_setField_ne _ _ _ _ (by decide)]
    · rw [getField_setField_ne _ _ _ _ (by decide), getField_setField_ne _ _ _ _ (by decide)]
    · rw [getField_setField_ne _ _ _ _ (by decide), getField_setField_ne _ _ _ _ (by decide)]
    · rw [getField_setField_ne _ _ _ _ (by decide), getField_setField_ne _ _ _ _ (by decide)]
    · rw [getField_setField_ne _ _ _ _ (by decide), getField_setField_ne _ _ _ _ (by decide)]
    · apply truthyField_congr
      rw [getField_setField_ne _ _ _ _ (by decide), getField_setField_ne _ _ _ _ (by decide)]
    · rw [@requiredKeyList_congr (setField (JVal.obj fs) "additionalProperties" v)
        (JVal.obj fs) (by rw [getField_setField_ne _ _ _ _ (by decide)]),
        @requiredKeyList_congr (setField (JVal.obj fs) "additionalProperties" w)
        (JVal.obj fs) (by rw [getField_setField_ne _ _ _ _ (by decide)])]
    · rw [getField_setField_ne _ _ _ _ (by decide), getField_setField_ne _ _ _ _ (by decide)]
    · right
      rw [getField_setField_self, getField_setField_self]
      exact ⟨hv, hw⟩
  | null => exact MatchEquiv.refl _
  | bool b => exact MatchEquiv.refl _
  | num q => exact MatchEquiv.refl _
  | str s => exact MatchEquiv.refl _
  | arr l => exact MatchEquiv.refl _

theorem dedupGo_congr {α : Type} [BEq α] (ys : List α) :
    ∀ seen1 seen2 : List α, (∀ y ∈ ys, seen1.contains y = seen2.contains y) →
      dedupGo seen1 ys = dedupGo seen2 ys := by
  induction ys with
  | nil => intro seen1 seen2 _; rfl
  | cons y ys ih =>
    intro seen1 seen2 h
    have hy := h y (List.mem_cons_self y ys)
    simp only [dedupGo, hy]
    by_cases hc : seen2.contains y = true
    · simp only [hc, if_true]
      exact ih seen1 seen2 (fun z hz => h z (List.mem_cons_of_mem _ hz))
    · simp only [hc, Bool.false_eq_true, if_false]
      rw [ih (y :: seen1) (y :: seen2) (fun z hz => by
        simp only [List.contains_cons, h z (List.mem_cons_of_mem _ hz)])]

theorem filter_dedupGo {α : Type} [BEq α] [LawfulBEq α] (p : α → Bool) (m : List α) :
    ∀ seen : List α, (dedupGo seen m).filter p = dedupGo seen (m.filter p) := by
  induction m with
  | nil => intro seen; rfl
  | cons x xs ih =>
    intro seen
    by_cases hp : p x = true
    · by_cases hc : seen.contains x = true
      · simp only [dedupGo, hc, if_true, List.filter_cons, hp, if_true, ih]
      · simp only [dedupGo, hc, Bool.false_eq_true, if_false, List.filter_cons, hp,
          if_true, ih]
    · by_cases hc : seen.contains x = true
      · simp only [dedupGo, hc, if_true, List.filter_cons, hp, Bool.false_eq_true,
          if_false, ih]
      · simp only [dedupGo, hc, Bool.false_eq_true, if_false, List.filter_cons, hp, ih]
        rw [dedupGo_congr (xs.filter p) (x :: seen) seen]
        intro y hy
        have hyp : p y = true := List.of_mem_filter hy
        have hne : (y == x) = false := by
          by_cases hyx : y = x
          · rw [hyx] at hyp; rw [hyp] at hp; exact absurd rfl hp
          · simpa using hyx
        simp [List.contains_cons, hne]

theorem filter_dedupKeepFirst {α : Type} [BEq α] [LawfulBEq α] (p : α → Bool) (m : List α) :
    (dedupKeepFirst m).filter p = dedupKeepFirst (m.filter p) := by
  simp [dedupKeepFirst, filter_dedupGo]

theorem map_filter_push {α β : Type} (f : α → β) (p : β → Bool) (l : List α) :
    (l.filter (fun x => p (f x))).map f = (l.map f).filter p := by
  induction l with
  | nil => rfl
  | cons x xs ih =>
    by_cases hp : p (f x) = true
    · simp [List.filter_cons, hp, ih]
    · simp [List.filter_cons, hp, ih]

theorem filter_idem {α : Type} (p : α → Bool) (l : List α) :
    (l.filter p).filter p = l.filter p := by
  rw [List.filter_filter]
  apply List.filter_congr
  intro a _
  rw [Bool.and_self]

/-- The claim-C8 schema variant: drop every `required` entry that stringifies
to `$schema` (identity when `required` is not an array). -/
def filterRequiredSchema (S : JVal) : JVal :=
  match getField S "required" with
  | some (JVal.arr l) =>
    setField S "required" (JVal.arr (l.filter (fun x => !(jsToStr x == "$schema"))))
  | _ => S

theorem matchEquiv_filterRequired (S : JVal) : MatchEquiv S (filterRequiredSchema S) := by
  unfold filterRequiredSchema
  cases hr : getField S "required" with
  | none => exact MatchEquiv.refl _
  | some r =>
    cases r with
    | null => exact MatchEquiv.refl _
    | bool b => exact MatchEquiv.refl _
    | num q => exact MatchEquiv.refl _
    | str s => exact MatchEquiv.refl _
    | obj fs2 => exact MatchEquiv.refl _
    | arr l =>
      have hobj : ∃ fs, S = JVal.obj fs := by
        cases S with
        | obj fs => exact ⟨fs, rfl⟩
        | null => simp [getField] at hr
        | bool b => simp [getField] at hr
        | num q => simp [getField] at hr
        | str s => simp [getField] at hr
        | arr a => simp [getField] at hr
      obtain ⟨fs, rfl⟩ := hobj
      apply matchEquiv_of_getField
      · rw [jsFalsy_setField]
      · rw [getField_setField_ne _ _ _ _ (by decide)]
      · rw [getField_setField_ne _ _ _ _ (by decide)]
      · rw [getField_setField_ne _ _ _ _ (by decide)]
      · rw [getField_setField_ne _ _ _ _ (by decide)]
      · rw [getField_setField_ne _ _ _ _ (by decide)]
      · rw [getField_setField_ne _ _ _ _ (by decide)]
      · unfold truthyField
        rw [hr, getField_setField_self]
        rfl
      · unfold requiredKeyList
        rw [hr, getField_setField_self]
        simp only [Option.map]
        refine congrArg some ?_
        rw [map_filter_push jsToStr (fun y => !(y == "$schema")) l]
        rw [← filter_dedupKeepFirst (fun y => !(y == "$schema")) (l.map jsToStr)]
        rw [filter_idem]
      · rw [getField_setField_ne _ _ _ _ (by decide)]
      · left
        rw [getField_setField_ne _ _ _ _ (by decide)]

theorem visitPropertiesWith_append (visit : DocNode → JVal → Option (List Diagnostic))
    (xs ys : List DocNode) (rs : JVal) (cfg : Config) :
    visitPropertiesWith visit (xs ++ ys) rs cfg =
      match visitPropertiesWith visit xs rs cfg, visitPropertiesWith visit ys rs cfg with
      | some (d1, k1), some (d2, k2) => some (d1 ++ d2, k1 ++ k2)
      | _, _ => none := by
  induction xs with
  | nil =>
    simp only [List.nil_append, visitPropertiesWith]
    cases visitPropertiesWith visit ys rs cfg with
    | none => rfl
    | some r => obtain ⟨d2, k2⟩ := r; simp
  | cons p rest ih =>
    simp only [List.cons_append, visitPropertiesWith, List.append_eq]
    rw [ih]
    cases visitPropertyPairWith visit p rs cfg with
    | none =>
      cases visitPropertiesWith visit rest rs cfg with
      | none => rfl
      | some r2 =>
        obtain ⟨d2, k2⟩ := r2
        cases visitPropertiesWith visit ys rs cfg with
        | none => rfl
        | some r3 => obtain ⟨d3, k3⟩ := r3; rfl
    | some r1 =>
      obtain ⟨d1, k1⟩ := r1
      cases visitPropertiesWith visit rest rs cfg with
      | none => rfl
      | some r2 =>
        obtain ⟨d2, k2⟩ := r2
        cases visitPropertiesWith visit ys rs cfg with
        | none => rfl
        | some r3 =>
          obtain ⟨d3, k3⟩ := r3
          simp [List.append_assoc]

theorem visitPropertyPairWith_schemaKey (visit : DocNode → JVal → Option (List Diagnostic))
    (po pl sko skl : Nat) (tail : List DocNode) (rs : JVal) (cfg : Config) :
    visitPropertyPairWith visit
        (DocNode.prop po pl (DocNode.str sko skl "$schema" :: tail)) rs cfg
      = some ([], []) := by
  cases tail with
  | nil => rfl
  | cons v t => rfl

theorem visitProperties_insert_schemaKey (visit : DocNode → JVal → Option (List Diagnostic))
    (pre post : List DocNode) (po pl sko skl : Nat) (tail : List DocNode)
    (rs : JVal) (cfg : Config) :
    visitPropertiesWith visit
        (pre ++ DocNode.prop po pl (DocNode.str sko skl "$schema" :: tail) :: post) rs cfg
      = visitPropertiesWith visit (pre ++ post) rs cfg := by
  rw [visitPropertiesWith_append, visitPropertiesWith_append]
  have hmid : visitPropertiesWith visit
      (DocNode.prop po pl (DocNode.str sko skl "$schema" :: tail) :: post) rs cfg
      = visitPropertiesWith visit post rs cfg := by
    simp only [visitPropertiesWith, visitPropertyPairWith_schemaKey]
    cases visitPropertiesWith visit post rs cfg with
    | none => rfl
    | some r => obtain ⟨d2, k2⟩ := r; simp
  rw [hmid]

theorem visitNode_obj_children_congr (rfuel dfuel o l : Nat) (c1 c2 : List DocNode)
    (S root : JVal) (cfg : Config)
    (h : ∀ rs, visitPropertiesWith
        (fun nd s => visitNodeForDiagnostics rfuel dfuel nd s root cfg) c1 rs cfg
      = visitPropertiesWith
        (fun nd s => visitNodeForDiagnostics rfuel dfuel nd s root cfg) c2 rs cfg) :
    visitNodeForDiagnostics rfuel (Nat.succ dfuel) (DocNode.obj o l c1) S root cfg
      = visitNodeForDiagnostics rfuel (Nat.succ dfuel) (DocNode.obj o l c2) S root cfg := by
  simp only [visitNodeForDiagnostics]
  by_cases hfS : jsFalsy S = true
  · simp [hfS]
  · simp only [hfS, Bool.false_eq_true, if_false]
    cases resolveSchemaNodeF rfuel S root [] with
    | none => rfl
    | some r =>
      cases r with
      | none => rfl
      | some rs =>
        simp only []
        by_cases hf : jsFalsy rs = true
        · simp [hf]
        · simp only [hf, Bool.false_eq_true, if_false]
          rw [show isNodeTypeCompatible (DocNode.obj o l c1) rs
            = isNodeTypeCompatible (DocNode.obj o l c2) rs from rfl]
          rw [show createTypeMismatchDiagnostic (DocNode.obj o l c1) rs
            = createTypeMismatchDiagnostic (DocNode.obj o l c2) rs from rfl]
          by_cases hcompat : isNodeTypeCompatible (DocNode.obj o l c2) rs = true
          · simp only [hcompat, Bool.not_true, Bool.false_eq_true, if_false]
            by_cases hobj : isObjectSchema rs = true
            · simp only [hobj, Bool.not_true, Bool.false_eq_true, if_false]
              cases requiredKeyList rs with
              | none => rfl
              | some reqKeys =>
                rw [h rs]
                cases visitPropertiesWith
                    (fun nd s => visitNodeForDiagnostics rfuel dfuel nd s root cfg)
                    c2 rs cfg with
                | none => rfl
                | some r2 =>
                  obtain ⟨ds, present⟩ := r2
                  rfl
            · simp only [hobj, Bool.not_false, if_true]
          · simp only [hcompat, Bool.not_false, if_true]

/- ---------------------------------------------------------------------- -/
/- Claim C1.                                                               -/
/- ---------------------------------------------------------------------- -/

/-- The schema node `{"$ref": "#/a"}`. -/
def c1EntryNode : JVal := JVal.obj [("$ref", JVal.str "#/a")]

/-- The schema node `{"allOf": [{"$ref": "#/a"}]}`. -/
def c1CycleNode : JVal := JVal.obj [("allOf", JVal.arr [c1EntryNode])]

/-- The root schema `{"a": {"allOf": [{"$ref": "#/a"}]}}`. -/
def c1Root : JVal := JVal.obj [("a", c1CycleNode)]

theorem C1_aux : ∀ n : Nat,
    resolveSchemaNodeF n c1EntryNode c1Root [] = none ∧
    resolveSchemaNodeF n c1CycleNode c1Root [["a"]] = none := by
  intro n
  induction n with
  | zero => exact ⟨rfl, rfl⟩
  | succ n ih =>
    constructor
    · have hstep : resolveSchemaNodeF (n + 1) c1EntryNode c1Root []
          = resolveSchemaNodeF n c1CycleNode c1Root [["a"]] := by
        with_unfolding_all rfl
      rw [hstep]
      exact ih.2
    · have hstep : resolveSchemaNodeF (n + 1) c1CycleNode c1Root [["a"]]
          = (match [c1EntryNode].mapM (fun e => resolveSchemaNodeF n e c1Root []) with
            | none => none
            | some results =>
              mergeSchemas ((results.filterMap id).filter (fun v => !(jsFalsy v)))) := by
        with_unfolding_all rfl
      rw [hstep]
      have hmap : [c1EntryNode].mapM (fun e => resolveSchemaNodeF n e c1Root []) = none := by
        rw [List.mapM_cons, ih.1]
        rfl
      rw [hmap]

/-- C1: the claim says resolution terminates for every root schema and
starting node (cycles cut by the visited set, over-long chains reported as
absent).  The code violates this: on the root `{"a": {"allOf": [{"$ref":
"#/a"}]}}`, resolving `{"$ref": "#/a"}` re-enters the `$ref` cycle through
the `allOf` branch with a fresh visited set and never returns (in the model,
the fuelled resolver diverges: it returns the out-of-fuel marker for every
fuel bound). -/
theorem C1_allOf_refCycle_resolution_diverges :
    ∀ n : Nat, resolveSchemaNodeF n c1EntryNode c1Root [] = none :=
  fun n => (C1_aux n).1

/- ---------------------------------------------------------------------- -/
/- Claim C2.                                                               -/
/- ---------------------------------------------------------------------- -/

/-- A schema with `type: ["string", "number"]`. -/
def c2Schema : JVal := JVal.obj [("type", JVal.arr [JVal.str "string", JVal.str "number"])]

/-- A document boolean node, incompatible with `c2Schema`. -/
def c2Node : DocNode := DocNode.bool 0 4 true

/-- C2 counterexample: the claim says the expected type names are joined by
the bare character `|` (message exactly `Type mismatch: expected
string|number.`), but the code joins with `' | '` — a pipe surrounded by
single spaces. -/
theorem C2_separator_counterexample :
    (createTypeMismatchDiagnostic c2Node c2Schema).message
        = "Type mismatch: expected string | number." ∧
      (createTypeMismatchDiagnostic c2Node c2Schema).message
        ≠ "Type mismatch: expected string|number." := by
  exact ⟨rfl, by decide⟩

/-- Modelled from the spec (C2 as amended): the message text of a
type-mismatch diagnostic is exactly `Type mismatch: expected <label>.`
where the label is the rendered expected-type entries joined by `' | '`
(pipe with a single space on each side), or the literal word `unknown`
when the expected-type set is empty. -/
def specTypeMismatchText (names : List String) : String :=
  "Type mismatch: expected "
    ++ (if names.isEmpty then "unknown" else String.intercalate " | " names) ++ "."

/-- Modelled from the spec (C2 as amended): how one expected-type entry is
rendered inside the label — the JS string conversion, except that a literal
`null` entry contributes the empty string (the `Array.prototype.join`
rule). -/
def specTypeEntryText : JVal → String
  | JVal.null => ""
  | v => jsToStr v

/-- C2 (amended): every type-mismatch diagnostic's message follows the
amended format, for every node and schema; the second conjunct exercises
the `null`-entry rule — a schema whose `type` is the sequence containing
only JSON `null` prints `Type mismatch: expected .` (empty label), not
`expected null.`. -/
theorem C2_typeMismatch_message_format :
    (∀ (node : DocNode) (schema : JVal),
      (createTypeMismatchDiagnostic node schema).message
        = specTypeMismatchText
            ((getSchemaTypeCandidates schema).map specTypeEntryText))
    ∧ (createTypeMismatchDiagnostic (DocNode.bool 0 4 true)
        (JVal.obj [("type", JVal.arr [JVal.null])])).message
      = "Type mismatch: expected ." := by
  constructor
  · intro node schema
    have hfe : joinElemStr = specTypeEntryText :=
      funext fun v => by cases v <;> rfl
    unfold createTypeMismatchDiagnostic specTypeMismatchText typeMismatchMessage
    rw [hfe]
    cases h : getSchemaTypeCandidates schema with
    | nil => rfl
    | cons a t => simp
  · decide

/- ---------------------------------------------------------------------- -/
/- Claim C3.                                                               -/
/- ---------------------------------------------------------------------- -/

/-- `{"type": "string"}`. -/
def c3StrSchema : JVal := JVal.obj [("type", JVal.str "string")]

/-- `{"type": "number"}`. -/
def c3NumSchema : JVal := JVal.obj [("type", JVal.str "number")]

/-- `{"oneOf": [{"type": "string"}, {"type": "number"}]}`. -/
def c3OneOfSchema : JVal := JVal.obj [("oneOf", JVal.arr [c3StrSchema, c3NumSchema])]

theorem resolveSchemaNodeF_first_entry_only (key : String)
    (hkey : key = "oneOf" ∨ key = "anyOf") :
    ∀ (n : Nat) (S root : JVal) (seen : List PtrPath) (e : JVal) (r1 r2 : List JVal),
      resolveSchemaNodeF n (setField S key (JVal.arr (e :: r1))) root seen
        = resolveSchemaNodeF n (setField S key (JVal.arr (e :: r2))) root seen := by
  intro n S root seen e r1 r2
  cases S with
  | null => rfl
  | bool b => rfl
  | num q => rfl
  | str s => rfl
  | arr l => rfl
  | obj fs =>
    cases n with
    | zero => rfl
    | succ n =>
      have hne : ∀ kq : String, kq ≠ key →
          getField (setField (JVal.obj fs) key (JVal.arr (e :: r1))) kq
            = getField (setField (JVal.obj fs) key (JVal.arr (e :: r2))) kq := by
        intro kq hkq
        rw [getField_setField_ne _ _ _ _ hkq, getField_setField_ne _ _ _ _ hkq]
      have hrefne : ("$ref" : String) ≠ key := by
        rcases hkey with rfl | rfl <;> decide
      have hallne : ("allOf" : String) ≠ key := by
        rcases hkey with rfl | rfl <;> decide
      simp only [resolveSchemaNodeF]
      rw [getRefStr_congr (hne "$ref" hrefne)]
      cases getRefStr (setField (JVal.obj fs) key (JVal.arr (e :: r2))) with
      | some ref => rfl
      | none =>
        rw [compositionEntries_congr "allOf" (hne "allOf" hallne)]
        cases compositionEntries (setField (JVal.obj fs) key (JVal.arr (e :: r2))) "allOf" with
        | throwErr => rfl
        | entries l => rfl
        | notTaken =>
          rcases hkey with rfl | rfl
          · have h1 : firstCompositionEntry
                (setField (JVal.obj fs) "oneOf" (JVal.arr (e :: r1))) "oneOf" = some e := by
              unfold firstCompositionEntry
              rw [getField_setField_self]
            have h2 : firstCompositionEntry
                (setField (JVal.obj fs) "oneOf" (JVal.arr (e :: r2))) "oneOf" = some e := by
              unfold firstCompositionEntry
              rw [getField_setField_self]
            rw [h1, h2]
          · rw [firstCompositionEntry_congr "oneOf" (hne "oneOf" (by decide))]
            cases firstCompositionEntry
                (setField (JVal.obj fs) "anyOf" (JVal.arr (e :: r2))) "oneOf" with
            | some e2 => rfl
            | none =>
              have h1 : firstCompositionEntry
                  (setField (JVal.obj fs) "anyOf" (JVal.arr (e :: r1))) "anyOf" = some e := by
                unfold firstCompositionEntry
                rw [getField_setField_self]
              have h2 : firstCompositionEntry
                  (setField (JVal.obj fs) "anyOf" (JVal.arr (e :: r2))) "anyOf" = some e := by
                unfold firstCompositionEntry
                rw [getField_setField_self]
              rw [h1, h2]

/-- C3: resolution of a non-empty `oneOf` (and, when `oneOf` is not taken,
`anyOf`) considers only the first entry: the result does not depend on the
later entries at all, even when the first entry fails to resolve (parts 1
and 2); concretely, `oneOf: [{type: string}, {type: number}]` resolves to the
first branch (part 3), and matching a document number node against it emits a
type-mismatch diagnostic naming `string` although branch 1 would have
matched (part 4). -/
theorem C3_oneOf_anyOf_first_entry_only :
    (∀ (n : Nat) (S root : JVal) (seen : List PtrPath) (e : JVal) (r1 r2 : List JVal),
      resolveSchemaNodeF n (setField S "oneOf" (JVal.arr (e :: r1))) root seen
        = resolveSchemaNodeF n (setField S "oneOf" (JVal.arr (e :: r2))) root seen)
    ∧ (∀ (n : Nat) (S root : JVal) (seen : List PtrPath) (e : JVal) (r1 r2 : List JVal),
      resolveSchemaNodeF n (setField S "anyOf" (JVal.arr (e :: r1))) root seen
        = resolveSchemaNodeF n (setField S "anyOf" (JVal.arr (e :: r2))) root seen)
    ∧ resolveSchemaNodeF 5 c3OneOfSchema c3OneOfSchema [] = some (some c3StrSchema)
    ∧ visitNodeForDiagnostics 5 5 (DocNode.num 0 2 42) c3OneOfSchema c3OneOfSchema ⟨true⟩
      = some [⟨0, 2, "Type mismatch: expected string.", "warning"⟩] := by
  refine ⟨resolveSchemaNodeF_first_entry_only "oneOf" (Or.inl rfl),
    resolveSchemaNodeF_first_entry_only "anyOf" (Or.inr rfl), ?_, ?_⟩
  · decide
  · decide

/- ---------------------------------------------------------------------- -/
/- Claim C6.                                                               -/
/- ---------------------------------------------------------------------- -/

/-- C6: when the expected-type set of a resolved schema contains `integer`
but not `number`, a document number node is type-compatible exactly when its
decoded value is a mathematical integer (denominator 1); a number node is
never compatible with `integer` by kind alone. -/
theorem C6_integer_requires_integral_value :
    ∀ (o l : Nat) (q : ℚ) (S : JVal),
      (getSchemaTypeCandidates S).contains (JVal.str "integer") = true →
      (getSchemaTypeCandidates S).contains (JVal.str "number") = false →
      (isNodeTypeCompatible (DocNode.num o l q) S = true ↔ q.den = 1) := by
  intro o l q S hint hnum
  unfold isNodeTypeCompatible
  have hne : (getSchemaTypeCandidates S).isEmpty = false := by
    cases h : getSchemaTypeCandidates S with
    | nil => rw [h] at hint; simp [List.contains] at hint
    | cons a t => rfl
  simp only [hne, Bool.false_eq_true, if_false, hint, hnum, if_true]
  simp

/-- Witness for C6: with schema `{"type": "integer"}`, the value 3 is
compatible and the value 7/2 is not. -/
theorem C6_integer_requires_integral_value_witness :
    ((getSchemaTypeCandidates (JVal.obj [("type", JVal.str "integer")])).contains
        (JVal.str "integer") = true)
    ∧ ((getSchemaTypeCandidates (JVal.obj [("type", JVal.str "integer")])).contains
        (JVal.str "number") = false)
    ∧ (isNodeTypeCompatible (DocNode.num 0 1 3) (JVal.obj [("type", JVal.str "integer")]) = true
        ↔ (3 : ℚ).den = 1)
    ∧ (isNodeTypeCompatible (DocNode.num 0 3 (mkRat 7 2))
        (JVal.obj [("type", JVal.str "integer")]) = true ↔ (mkRat 7 2).den = 1) := by
  refine ⟨by decide, by decide, ?_, ?_⟩
  · exact C6_integer_requires_integral_value 0 1 3 _ (by decide) (by decide)
  · exact C6_integer_requires_integral_value 0 3 (mkRat 7 2) _ (by decide) (by decide)

/- ---------------------------------------------------------------------- -/
/- Claim C7.                                                               -/
/- ---------------------------------------------------------------------- -/

/-- The `items` sequence `[null, {"type": "string"}]`. -/
def c7Items : JVal := JVal.arr [JVal.null, JVal.obj [("type", JVal.str "string")]]

/-- C7 counterexample: the claim says the item schema applied at an in-range
position `i` is the sequence entry at index `i`; but with the valid JSON
sequence `[null, {"type": "string"}]` and `i = 0` the code's nullish
fallback (`items[0] ?? items[1]`) applies the last entry instead of the
`null` entry at index 0. -/
theorem C7_null_entry_counterexample :
    resolveArrayItemSchema (some c7Items) 0 = some (JVal.obj [("type", JVal.str "string")])
    ∧ [JVal.null, JVal.obj [("type", JVal.str "string")]].get? 0 = some JVal.null
    ∧ resolveArrayItemSchema (some c7Items) 0
      ≠ [JVal.null, JVal.obj [("type", JVal.str "string")]].get? 0 := by
  exact ⟨rfl, rfl, by decide⟩

/-- Modelled from the spec (C7 as amended): the item schema applied at
position `i` is the single schema for every index when `items` is one truthy
non-sequence value; for a sequence, the entry at index `i` when `i` is in
range and that entry is not `null`, and otherwise (index beyond the length,
or a `null` entry at `i`) the sequence's last entry — not "unconstrained";
no constraint for an empty sequence or an absent/falsy `items`. -/
def itemSchemaSpec (items : Option JVal) (i : Nat) : Option JVal :=
  match items with
  | none => none
  | some (JVal.arr l) =>
    if h : i < l.length then
      if l.get ⟨i, h⟩ = JVal.null then l.getLast? else some (l.get ⟨i, h⟩)
    else l.getLast?
  | some v => if jsFalsy v then none else some v

/-- C7 (amended): the code's item-schema selection agrees with the amended
rule on every `items` value and index. -/
theorem C7_item_schema_selection :
    ∀ (items : Option JVal) (i : Nat),
      resolveArrayItemSchema items i = itemSchemaSpec items i := by
  intro items i
  cases items with
  | none => rfl
  | some v =>
    cases v with
    | null => rfl
    | bool b => cases b <;> rfl
    | num q =>
      by_cases h : q = 0
      · simp [resolveArrayItemSchema, itemSchemaSpec, jsFalsy, h]
      · simp [resolveArrayItemSchema, itemSchemaSpec, jsFalsy, h]
    | str s =>
      by_cases h : s = ""
      · simp [resolveArrayItemSchema, itemSchemaSpec, jsFalsy, h]
      · simp [resolveArrayItemSchema, itemSchemaSpec, jsFalsy, h]
    | obj fs => rfl
    | arr l =>
      simp only [resolveArrayItemSchema, itemSchemaSpec, jsFalsy, Bool.false_eq_true,
        if_false]
      have hlast : l[l.length - 1]? = l.getLast? := by
        cases l with
        | nil => rfl
        | cons x xs => rw [List.getLast?_eq_getElem?]
      by_cases h : i < l.length
      · have hget : l.get? i = some (l.get ⟨i, h⟩) := by
          rw [List.get?_eq_getElem?, List.getElem?_eq_getElem h]
          rfl
        rw [hget]
        simp only [h, dif_pos]
        by_cases hnull : l.get ⟨i, h⟩ = JVal.null
        · rw [hnull]
          simp [hlast, hnull]
        · cases hv : l.get ⟨i, h⟩ with
          | null => exact absurd hv hnull
          | bool b => simp [hv]
          | num q => simp [hv]
          | str s => simp [hv]
          | arr a => simp [hv]
          | obj fs => simp [hv]
      · have hget : l.get? i = none := by
          rw [List.get?_eq_getElem?, List.getElem?_eq_none]
          omega
        rw [hget]
        simp [h, hlast]

/- ---------------------------------------------------------------------- -/
/- Claim C9.                                                               -/
/- ---------------------------------------------------------------------- -/

/-- C9: an absent resolution result is an ordinary returned value and makes
the matcher emit nothing: (1) when the schema of a node resolves to absent,
the visit of that node returns the empty diagnostic list and does not
recurse; (2) a `$ref` that is not fragment-local resolves to absent;
(3) a fragment-local `$ref` whose pointer path does not exist in the root
schema resolves to absent; (4) a non-empty `allOf` whose branches all fail
to resolve (empty after filtering) resolves to absent. -/
theorem C9_absent_resolution_yields_no_diagnostics :
    (∀ (rfuel dfuel : Nat) (node : DocNode) (S root : JVal) (cfg : Config),
      resolveSchemaNodeF rfuel S root [] = some none →
      visitNodeForDiagnostics rfuel (dfuel + 1) node S root cfg = some [])
    ∧ (∀ (n : Nat) (S root : JVal) (seen : List PtrPath) (r : String),
      getRefStr S = some r → strStartsWith r "#" = false →
      resolveSchemaNodeF (n + 1) S root seen = some none)
    ∧ (∀ (n : Nat) (S root : JVal) (seen : List PtrPath) (r : String),
      getRefStr S = some r → resolvePointer root r = none →
      resolveSchemaNodeF (n + 1) S root seen = some none)
    ∧ (∀ (n : Nat) (S root : JVal) (seen : List PtrPath) (entries : List JVal)
        (results : List (Option JVal)),
      getRefStr S = none →
      compositionEntries S "allOf" = CompResult.entries entries →
      entries.mapM (fun e => resolveSchemaNodeF n e root []) = some results →
      (results.filterMap id).filter (fun v => !(jsFalsy v)) = [] →
      resolveSchemaNodeF (n + 1) S root seen = some none) := by
  refine ⟨?_, ?_, ?_, ?_⟩
  · intro rfuel dfuel node S root cfg hres
    simp only [visitNodeForDiagnostics]
    by_cases hf : jsFalsy S = true
    · simp [hf]
    · simp [hf, hres]
  · intro n S root seen r href hstart
    simp only [resolveSchemaNodeF, href, hstart]
    rfl
  · intro n S root seen r href hptr
    simp only [resolveSchemaNodeF, href]
    by_cases hstart : strStartsWith r "#" = true
    · simp [hstart, hptr]
    · simp [hstart]
  · intro n S root seen entries results href hcomp hmap hfilter
    simp only [resolveSchemaNodeF, href, hcomp, hmap, hfilter]
    rfl

/-- Witness for C9: a remote `$ref` (`http://example.com/s.json`), a missing
pointer (`#/nope`), and an `allOf` whose only branch fails, all resolve to
absent, and the matcher emits no diagnostics for a node governed by such a
schema. -/
theorem C9_absent_resolution_yields_no_diagnostics_witness :
    visitNodeForDiagnostics 3 3 (DocNode.num 0 1 1)
        (JVal.obj [("$ref", JVal.str "http://example.com/s.json")]) (JVal.obj []) ⟨true⟩
      = some []
    ∧ resolveSchemaNodeF 3 (JVal.obj [("$ref", JVal.str "http://example.com/s.json")])
        (JVal.obj []) [] = some none
    ∧ resolveSchemaNodeF 3 (JVal.obj [("$ref", JVal.str "#/nope")]) (JVal.obj []) []
      = some none
    ∧ resolveSchemaNodeF 3
        (JVal.obj [("allOf", JVal.arr [JVal.obj [("$ref", JVal.str "#/nope")]])])
        (JVal.obj []) [] = some none := by
  have h2 := C9_absent_resolution_yields_no_diagnostics.2.1 2
    (JVal.obj [("$ref", JVal.str "http://example.com/s.json")]) (JVal.obj []) []
    "http://example.com/s.json" (by decide) (by decide)
  have h3 := C9_absent_resolution_yields_no_diagnostics.2.2.1 2
    (JVal.obj [("$ref", JVal.str "#/nope")]) (JVal.obj []) [] "#/nope" (by decide) (by decide)
  have h4 := C9_absent_resolution_yields_no_diagnostics.2.2.2 2
    (JVal.obj [("allOf", JVal.arr [JVal.obj [("$ref", JVal.str "#/nope")]])])
    (JVal.obj []) [] [JVal.obj [("$ref", JVal.str "#/nope")]] [none]
    (by decide) (by decide) (by decide) (by decide)
  have h1 := C9_absent_resolution_yields_no_diagnostics.1 3 2 (DocNode.num 0 1 1)
    (JVal.obj [("$ref", JVal.str "http://example.com/s.json")]) (JVal.obj []) ⟨true⟩ h2
  exact ⟨h1, h2, h3, h4⟩

/- ---------------------------------------------------------------------- -/
/- Claim C5.                                                               -/
/- ---------------------------------------------------------------------- -/

/-- The own-property keys of `Object.prototype`.  A JavaScript bracket
access `p[key]` on a plain object — and `schema.properties` parsed from
JSON is a plain object — falls back to the prototype chain, so each of
these keys resolves to an inherited built-in function even when `p` has no
own property named `key`. -/
def objectPrototypeKeys : List String :=
  ["constructor", "hasOwnProperty", "isPrototypeOf", "propertyIsEnumerable",
   "toLocaleString", "toString", "valueOf",
   "__defineGetter__", "__defineSetter__", "__lookupGetter__",
   "__lookupSetter__", "__proto__"]

/-- Truthiness of the bracket access `p[key]` on a plain JSON object with
fields `fs`, as JavaScript evaluates it (source line 186, the test
`schema.properties && schema.properties[key]`): a declared key gives its
own value's truthiness; an undeclared key falls back to the inherited
`Object.prototype` member, a built-in function, which is truthy. -/
def objBracketTruthy (fs : List (String × JVal)) (key : String) : Bool :=
  match lookupField fs key with
  | some v => !jsFalsy v
  | none => objectPrototypeKeys.contains key

/-- `{"properties": {}, "additionalProperties": false}`. -/
def c5BugSchema : JVal :=
  JVal.obj [("properties", JVal.obj []), ("additionalProperties", JVal.bool false)]

/-- The document `{"toString": 5}`, with the key node at offsets
`[1, 11)`. -/
def c5BugDoc : DocNode :=
  DocNode.obj 0 16
    [DocNode.prop 1 14 [DocNode.str 1 10 "toString", DocNode.num 13 1 5]]

/-- **C5.**  The claim's elaboration — a key not declared in `properties`
yields one unknown-property diagnostic exactly when `showUnknownProperties`
is enabled — fails on the program for `Object.prototype` member keys.
For the schema `{"properties": {}, "additionalProperties": false}` and the
key `toString`: (1) `properties` declares no own property `toString`, yet
(2) the source's test `schema.properties && schema.properties[key]` passes,
because the bracket access finds the inherited built-in
`Object.prototype.toString`, a truthy function — so the property loop takes
the known-property branch (recursing into that function as the property
schema; every schema field read from it is `undefined`, so the recursion
yields nothing) and the unknown-property push is unreachable: the program
emits zero diagnostics.  By contrast, (3–4) under the claim's own-property
reading of the lookup the key is unknown, and the visit of
`{"toString": 5}` emits exactly the one unknown-property diagnostic the
program never produces. -/
theorem C5_prototype_chain_lookup_divergence :
    lookupField ([] : List (String × JVal)) "toString" = none
    ∧ objBracketTruthy [] "toString" = true
    ∧ (getPropertySchemaInfo c5BugSchema "toString").isKnown = false
    ∧ visitNodeForDiagnostics 3 3 c5BugDoc c5BugSchema c5BugSchema ⟨true⟩
      = some [createUnknownPropertyDiagnostic (DocNode.str 1 10 "toString")
          "toString"] := by
  exact ⟨rfl, by decide, by decide, by decide⟩

/- ---------------------------------------------------------------------- -/
/- Claim C8.                                                               -/
/- ---------------------------------------------------------------------- -/

/-- C8: the reserved key `$schema` is invisible to the matcher.  Part 1:
inserting a property pair whose key is `$schema` (with any value, at any
position) into a document object changes nothing — the diagnostic sequence
equals that of the object without the pair, so the key is not flagged
unknown, not validated, and not counted as present.  Part 2: dropping every
`required` entry that stringifies to `$schema` from the schema changes
nothing either, so `$schema` is excluded from the missing-required check
even when `required` contains it. -/
theorem C8_schema_key_reserved :
    (∀ (rfuel dfuel o l : Nat) (pre post : List DocNode) (po pl sko skl : Nat)
        (tail : List DocNode) (S root : JVal) (cfg : Config),
      visitNodeForDiagnostics rfuel dfuel
          (DocNode.obj o l
            (pre ++ DocNode.prop po pl (DocNode.str sko skl "$schema" :: tail) :: post))
          S root cfg
        = visitNodeForDiagnostics rfuel dfuel (DocNode.obj o l (pre ++ post)) S root cfg)
    ∧ (∀ (rfuel dfuel : Nat) (node : DocNode) (S root : JVal) (cfg : Config),
      visitNodeForDiagnostics rfuel dfuel node S root cfg
        = visitNodeForDiagnostics rfuel dfuel node (filterRequiredSchema S) root cfg) := by
  constructor
  · intro rfuel dfuel o l pre post po pl sko skl tail S root cfg
    cases dfuel with
    | zero => rfl
    | succ dfuel =>
      exact visitNode_obj_children_congr rfuel dfuel o l _ _ S root cfg
        (fun rs => visitProperties_insert_schemaKey _ pre post po pl sko skl tail rs cfg)
  · intro rfuel dfuel node S root cfg
    exact visitNodeForDiagnostics_matchEquiv (matchEquiv_filterRequired S)
      rfuel dfuel node root cfg

/- ---------------------------------------------------------------------- -/
/- Claim C4.                                                               -/
/- ---------------------------------------------------------------------- -/

def isArrJV : JVal → Bool
  | JVal.arr _ => true
  | _ => false

/-- The branch's `required` field is absent, falsy, or an array; anything
else would make the spread throw. -/
def reqShapeOk (s : JVal) : Bool :=
  match getField s "required" with
  | none => true
  | some v => jsFalsy v || isArrJV v

/-- The `required` entries a branch contributes to the merge. -/
def reqElems (s : JVal) : List JVal :=
  match getField s "required" with
  | some (JVal.arr l) => l
  | _ => []

/-- The `required` entries held by a merged accumulator. -/
def accReq (acc : List (String × JVal)) : List JVal :=
  match lookupField acc "required" with
  | some (JVal.arr l) => l
  | _ => []

/-- The `required` entries of a `mergeSchemas` result. -/
def mergedRequiredElems (r : Option (Option JVal)) : List JVal :=
  match r with
  | some (some m) => reqElems m
  | _ => []

theorem accReq_setFieldFs_ne (acc : List (String × JVal)) (k : String) (v : JVal)
    (h : ("required" : String) ≠ k) : accReq (setFieldFs acc k v) = accReq acc := by
  unfold accReq
  rw [lookupField_setFieldFs_ne _ _ _ _ h]

theorem accReq_setFieldFs_self (acc : List (String × JVal)) (l : List JVal) :
    accReq (setFieldFs acc "required" (JVal.arr l)) = l := by
  unfold accReq
  rw [lookupField_setFieldFs_self]

theorem accReq_mergeTypeStep (acc : List (String × JVal)) (s : JVal) :
    accReq (mergeTypeStep acc s) = accReq acc := by
  unfold mergeTypeStep
  cases getField s "type" with
  | none => rfl
  | some t =>
    by_cases hf : jsFalsy t = true
    · simp [hf]
    · simp only [hf, Bool.false_eq_true, if_false]
      exact accReq_setFieldFs_ne acc "type" t (by decide)

theorem accReq_mergePropertiesStep (acc : List (String × JVal)) (s : JVal) :
    accReq (mergePropertiesStep acc s) = accReq acc := by
  unfold mergePropertiesStep
  cases getField s "properties" with
  | none => rfl
  | some p =>
    by_cases hf : jsFalsy p = true
    · simp [hf]
    · simp only [hf, Bool.false_eq_true, if_false]
      exact accReq_setFieldFs_ne acc "properties" _ (by decide)

theorem accReq_mergeItemsStep (acc : List (String × JVal)) (s : JVal) :
    accReq (mergeItemsStep acc s) = accReq acc := by
  unfold mergeItemsStep
  cases getField s "items" with
  | none => rfl
  | some it =>
    by_cases hf : jsFalsy it = true
    · simp [hf]
    · simp only [hf, Bool.false_eq_true, if_false]
      exact accReq_setFieldFs_ne acc "items" it (by decide)

theorem accReq_mergeApStep (acc : List (String × JVal)) (s : JVal) :
    accReq (mergeApStep acc s) = accReq acc := by
  unfold mergeApStep
  cases getField s "additionalProperties" with
  | none => rfl
  | some ap => exact accReq_setFieldFs_ne acc "additionalProperties" ap (by decide)

theorem getField_none_of_falsy (s : JVal) (k : String) (h : jsFalsy s = true) :
    getField s k = none := by
  cases s with
  | null => rfl
  | bool b => rfl
  | num q => rfl
  | str str => rfl
  | arr l => simp [jsFalsy] at h
  | obj fs => simp [jsFalsy] at h

theorem mergeStep_req (acc : List (String × JVal)) (s : JVal)
    (h : reqShapeOk s = true) :
    ∃ acc2, mergeStep acc s = some acc2 ∧
      ∀ x, x ∈ accReq acc2 ↔ (x ∈ accReq acc ∨ x ∈ reqElems s) := by
  by_cases hf : jsFalsy s = true
  · refine ⟨acc, by simp [mergeStep, hf], fun x => ?_⟩
    unfold reqElems
    rw [getField_none_of_falsy s "required" hf]
    simp
  · have hstep : mergeStep acc s
        = match mergeRequiredStep (mergePropertiesStep (mergeTypeStep acc s) s) s with
          | none => none
          | some a3 => some (mergeApStep (mergeItemsStep a3 s) s) := by
      simp [mergeStep, hf]
    have hbase : accReq (mergePropertiesStep (mergeTypeStep acc s) s) = accReq acc := by
      rw [accReq_mergePropertiesStep, accReq_mergeTypeStep]
    cases hr : getField s "required" with
    | none =>
      have hmr : mergeRequiredStep (mergePropertiesStep (mergeTypeStep acc s) s) s
          = some (mergePropertiesStep (mergeTypeStep acc s) s) := by
        unfold mergeRequiredStep
        rw [hr]
      rw [hmr] at hstep
      refine ⟨_, hstep, fun x => ?_⟩
      rw [accReq_mergeApStep, accReq_mergeItemsStep, hbase]
      unfold reqElems
      rw [hr]
      simp
    | some r =>
      have hshape : (jsFalsy r || isArrJV r) = true := by
        have h2 := h
        unfold reqShapeOk at h2
        rw [hr] at h2
        exact h2
      by_cases hfr : jsFalsy r = true
      · have hmr0 : mergeRequiredStep (mergePropertiesStep (mergeTypeStep acc s) s) s
            = (if jsFalsy r = true then some (mergePropertiesStep (mergeTypeStep acc s) s)
              else
                match requiredSpread r with
                | some newElems =>
                  some (setFieldFs (mergePropertiesStep (mergeTypeStep acc s) s) "required"
                    (JVal.arr (dedupKeepFirst
                      ((match lookupField (mergePropertiesStep (mergeTypeStep acc s) s)
                          "required" with
                        | some (JVal.arr l0) => l0
                        | _ => []) ++ newElems))))
                | none => none) := by
          unfold mergeRequiredStep
          rw [hr]
        have hmr : mergeRequiredStep (mergePropertiesStep (mergeTypeStep acc s) s) s
            = some (mergePropertiesStep (mergeTypeStep acc s) s) := by
          rw [hmr0, if_pos hfr]
        rw [hmr] at hstep
        refine ⟨_, hstep, fun x => ?_⟩
        rw [accReq_mergeApStep, accReq_mergeItemsStep, hbase]
        unfold reqElems
        rw [hr]
        cases r with
        | null => simp
        | bool b => simp
        | num q => simp
        | str str => simp
        | arr l => simp [jsFalsy] at hfr
        | obj fs => simp [jsFalsy] at hfr
      · simp only [hfr, Bool.false_eq_true, false_or] at hshape
        obtain ⟨l, rfl⟩ : ∃ l, r = JVal.arr l := by
          cases r with
          | arr l => exact ⟨l, rfl⟩
          | null => simp [isArrJV] at hshape
          | bool b => simp [isArrJV] at hshape
          | num q => simp [isArrJV] at hshape
          | str str => simp [isArrJV] at hshape
          | obj fs => simp [isArrJV] at hshape
        have hmr : mergeRequiredStep (mergePropertiesStep (mergeTypeStep acc s) s) s
            = some (setFieldFs (mergePropertiesStep (mergeTypeStep acc s) s) "required"
                (JVal.arr (dedupKeepFirst
                  ((match lookupField (mergePropertiesStep (mergeTypeStep acc s) s)
                      "required" with
                    | some (JVal.arr l0) => l0
                    | _ => []) ++ l)))) := by
          unfold mergeRequiredStep
          rw [hr]
          rfl
        rw [hmr] at hstep
        have hstep2 : mergeStep acc s
            = some (mergeApStep (mergeItemsStep
                (setFieldFs (mergePropertiesStep (mergeTypeStep acc s) s) "required"
                  (JVal.arr (dedupKeepFirst
                    ((match lookupField (mergePropertiesStep (mergeTypeStep acc s) s)
                        "required" with
                      | some (JVal.arr l0) => l0
                      | _ => []) ++ l)))) s) s) := hstep
        refine ⟨_, hstep2, fun x => ?_⟩
        rw [accReq_mergeApStep, accReq_mergeItemsStep, accReq_setFieldFs_self]
        rw [dedupKeepFirst_mem, List.mem_append]
        unfold accReq at hbase
        rw [hbase]
        unfold reqElems
        rw [hr]
        exact Iff.rfl

/-- A field of a `mergeSchemas` result. -/
def mergedField (r : Option (Option JVal)) (k : String) : Option JVal :=
  match r with
  | some (some m) => getField m k
  | _ => none

/-- `{"type": "string"}` / `{"type": "number"}` and `items` /
`additionalProperties` pairs for the order-sensitivity examples. -/
def c4TypeStr : JVal := JVal.obj [("type", JVal.str "string")]

def c4TypeNum : JVal := JVal.obj [("type", JVal.str "number")]

def c4ItemsA : JVal := JVal.obj [("items", JVal.obj [("type", JVal.str "string")])]

def c4ItemsB : JVal := JVal.obj [("items", JVal.obj [("type", JVal.str "number")])]

def c4ApF : JVal := JVal.obj [("additionalProperties", JVal.bool false)]

def c4ApT : JVal := JVal.obj [("additionalProperties", JVal.bool true)]

/-- C4: the `allOf` merge is commutative in `required` — part 1: the merged
`required` entries of two branches are exactly the union of the branches'
entries (hence independent of branch order, part 2) — but not in `type`,
`items` or `additionalProperties`, where the last branch specifying the
field wins: merging `[{type: "string"}, {type: "number"}]` yields type
`"number"` while the reversed order yields `"string"`, and likewise for
`items` and `additionalProperties` (parts 3-8). -/
theorem C4_allOf_merge_required_union_type_last_wins :
    (∀ (a b : JVal), reqShapeOk a = true → reqShapeOk b = true →
      ∀ x, x ∈ mergedRequiredElems (mergeSchemas [a, b])
        ↔ (x ∈ reqElems a ∨ x ∈ reqElems b))
    ∧ (∀ (a b : JVal), reqShapeOk a = true → reqShapeOk b = true →
      ∀ x, x ∈ mergedRequiredElems (mergeSchemas [a, b])
        ↔ x ∈ mergedRequiredElems (mergeSchemas [b, a]))
    ∧ mergedField (mergeSchemas [c4TypeStr, c4TypeNum]) "type" = some (JVal.str "number")
    ∧ mergedField (mergeSchemas [c4TypeNum, c4TypeStr]) "type" = some (JVal.str "string")
    ∧ mergedField (mergeSchemas [c4ItemsA, c4ItemsB]) "items"
      = some (JVal.obj [("type", JVal.str "number")])
    ∧ mergedField (mergeSchemas [c4ItemsB, c4ItemsA]) "items"
      = some (JVal.obj [("type", JVal.str "string")])
    ∧ mergedField (mergeSchemas [c4ApF, c4ApT]) "additionalProperties" = some (JVal.bool true)
    ∧ mergedField (mergeSchemas [c4ApT, c4ApF]) "additionalProperties"
      = some (JVal.bool false) := by
  have hunion : ∀ (a b : JVal), reqShapeOk a = true → reqShapeOk b = true →
      ∀ x, x ∈ mergedRequiredElems (mergeSchemas [a, b])
        ↔ (x ∈ reqElems a ∨ x ∈ reqElems b) := by
    intro a b ha hb x
    obtain ⟨acc1, h1, hiff1⟩ := mergeStep_req [] a ha
    obtain ⟨acc2, h2, hiff2⟩ := mergeStep_req acc1 b hb
    have hm : mergeSchemas [a, b] = some (some (JVal.obj acc2)) := by
      unfold mergeSchemas
      simp [List.foldlM, h1, h2]
    rw [hm]
    have hmr : mergedRequiredElems (some (some (JVal.obj acc2))) = accReq acc2 := rfl
    rw [hmr, hiff2 x, hiff1 x]
    have hnil : accReq [] = [] := rfl
    rw [hnil]
    simp [or_assoc]
  refine ⟨hunion, ?_, by decide, by decide, by decide, by decide, by decide, by decide⟩
  intro a b ha hb x
  rw [hunion a b ha hb x, hunion b a hb ha x]
  exact or_comm

/-- Witness for C4: branches with `required: ["a", "b"]` and
`required: ["b", "c"]`; the merged `required` contains `"c"` in both orders
and equals the union. -/
theorem C4_allOf_merge_required_union_type_last_wins_witness :
    (reqShapeOk (JVal.obj [("required", JVal.arr [JVal.str "a", JVal.str "b"])]) = true)
    ∧ (reqShapeOk (JVal.obj [("required", JVal.arr [JVal.str "b", JVal.str "c"])]) = true)
    ∧ (JVal.str "c" ∈ mergedRequiredElems (mergeSchemas
          [JVal.obj [("required", JVal.arr [JVal.str "a", JVal.str "b"])],
            JVal.obj [("required", JVal.arr [JVal.str "b", JVal.str "c"])]])
        ↔ (JVal.str "c" ∈ reqElems (JVal.obj [("required", JVal.arr [JVal.str "a", JVal.str "b"])])
          ∨ JVal.str "c" ∈ reqElems (JVal.obj [("required", JVal.arr [JVal.str "b", JVal.str "c"])])))
    ∧ (JVal.str "c" ∈ mergedRequiredElems (mergeSchemas
          [JVal.obj [("required", JVal.arr [JVal.str "a", JVal.str "b"])],
            JVal.obj [("required", JVal.arr [JVal.str "b", JVal.str "c"])]])
        ↔ JVal.str "c" ∈ mergedRequiredElems (mergeSchemas
          [JVal.obj [("required", JVal.arr [JVal.str "b", JVal.str "c"])],
            JVal.obj [("required", JVal.arr [JVal.str "a", JVal.str "b"])]])) := by
  refine ⟨by decide, by decide, ?_, ?_⟩
  · exact C4_allOf_merge_required_union_type_last_wins.1 _ _ (by decide) (by decide) _
  · exact C4_allOf_merge_required_union_type_last_wins.2.1 _ _ (by decide) (by decide) _

/- ---------------------------------------------------------------------- -/
/- Claim C10.                                                              -/
/- ---------------------------------------------------------------------- -/

theorem strData_append (a b : String) : (a ++ b).data = a.data ++ b.data := by
  cases a
  cases b
  rfl

theorem head_append_of_head (p s : String) (c : Char) (h : p.data.head? = some c) :
    (p ++ s).data.head? = some c := by
  rw [strData_append]
  cases hd : p.data with
  | nil => rw [hd] at h; simp at h
  | cons x xs =>
    rw [hd] at h
    simp only [List.head?_cons, Option.some.injEq] at h
    simp [h]

/-- A diagnostic message of the missing-required form. -/
def isMissingMessage (m : String) : Prop := ∃ k, m = missingRequiredMessage k

theorem missingMessage_head (k : String) :
    (missingRequiredMessage k).data.head? = some 'M' := by
  unfold missingRequiredMessage
  apply head_append_of_head
  apply head_append_of_head
  decide

theorem typeMessage_head (l : String) :
    (typeMismatchMessage l).data.head? = some 'T' := by
  unfold typeMismatchMessage
  apply head_append_of_head
  apply head_append_of_head
  decide

theorem unknownMessage_head (k : String) :
    (unknownPropertyMessage k).data.head? = some 'U' := by
  unfold unknownPropertyMessage
  apply head_append_of_head
  apply head_append_of_head
  decide

theorem not_missing_typeMessage (l : String) : ¬ isMissingMessage (typeMismatchMessage l) := by
  rintro ⟨k, hk⟩
  have h2 : (typeMismatchMessage l).data.head? = (missingRequiredMessage k).data.head? := by
    rw [hk]
  rw [typeMessage_head, missingMessage_head] at h2
  exact absurd h2 (by decide)

theorem not_missing_unknownMessage (k2 : String) :
    ¬ isMissingMessage (unknownPropertyMessage k2) := by
  rintro ⟨k, hk⟩
  have h2 : (unknownPropertyMessage k2).data.head? = (missingRequiredMessage k).data.head? := by
    rw [hk]
  rw [unknownMessage_head, missingMessage_head] at h2
  exact absurd h2 (by decide)

theorem C10_span_aux :
    ∀ (dfuel rfuel : Nat) (node : DocNode) (S root : JVal) (cfg : Config)
      (ds : List Diagnostic),
      visitNodeForDiagnostics rfuel dfuel node S root cfg = some ds →
      ∀ d ∈ ds, isMissingMessage d.message → d.endOff = d.startOff + 1 := by
  intro dfuel
  induction dfuel with
  | zero =>
    intro rfuel node S root cfg ds h
    exact absurd h (by simp [visitNodeForDiagnostics])
  | succ dfuel ih =>
    have hpair : ∀ (rfuel : Nat) (root : JVal) (cfg : Config) (p : DocNode) (rs : JVal)
        (r : List Diagnostic × List String),
        visitPropertyPairWith (fun nd s => visitNodeForDiagnostics rfuel dfuel nd s root cfg)
          p rs cfg = some r →
        ∀ d ∈ r.1, isMissingMessage d.message → d.endOff = d.startOff + 1 := by
      intro rfuel root cfg p rs r hp d hd hform
      cases p with
      | prop po pl children =>
        cases children with
        | nil =>
          simp only [visitPropertyPairWith, Option.some.injEq] at hp
          rw [← hp] at hd
          simp at hd
        | cons kn rest1 =>
          cases rest1 with
          | nil =>
            cases kn <;>
              (simp only [visitPropertyPairWith, Option.some.injEq] at hp
               rw [← hp] at hd
               simp at hd)
          | cons vn rest =>
            cases kn with
            | str ko kl key =>
              simp only [visitPropertyPairWith] at hp
              by_cases hk0 : (key == "") = true
              · rw [if_pos hk0] at hp
                simp only [Option.some.injEq] at hp
                rw [← hp] at hd
                simp at hd
              · rw [if_neg (by simpa using hk0)] at hp
                by_cases hks : (key == "$schema") = true
                · rw [if_pos hks] at hp
                  simp only [Option.some.injEq] at hp
                  rw [← hp] at hd
                  simp at hd
                · rw [if_neg (by simpa using hks)] at hp
                  cases hinfo : (getPropertySchemaInfo rs key).schema with
                  | some s =>
                    have hp2 : (match
                        visitNodeForDiagnostics rfuel dfuel vn s root cfg with
                        | none => none
                        | some ds2 => some ((ds2, [key]) : List Diagnostic × List String))
                        = some r := by
                      rw [← hp]
                      unfold visitKnownPropertyWith
                      rw [hinfo]
                    cases hv : visitNodeForDiagnostics rfuel dfuel vn s root cfg with
                    | none => rw [hv] at hp2; exact absurd hp2 (by simp)
                    | some ds2 =>
                      rw [hv] at hp2
                      simp only [Option.some.injEq] at hp2
                      rw [← hp2] at hd
                      simp only [List.mem_singleton] at hd
                      exact ih rfuel vn s root cfg ds2 hv d hd hform
                  | none =>
                    have hp2 : (if cfg.showUnknownProperties
                          && !(getPropertySchemaInfo rs key).isKnown then
                        some (([createUnknownPropertyDiagnostic (DocNode.str ko kl key) key],
                          [key]) : List Diagnostic × List String)
                        else some (([], [key]) : List Diagnostic × List String))
                        = some r := by
                      rw [← hp]
                      unfold visitKnownPropertyWith
                      rw [hinfo]
                    by_cases hc : (cfg.showUnknownProperties
                        && !(getPropertySchemaInfo rs key).isKnown) = true
                    · rw [if_pos hc] at hp2
                      simp only [Option.some.injEq] at hp2
                      rw [← hp2] at hd
                      simp only [List.mem_singleton] at hd
                      rw [hd] at hform
                      exact absurd hform (not_missing_unknownMessage key)
                    · rw [if_neg hc] at hp2
                      simp only [Option.some.injEq] at hp2
                      rw [← hp2] at hd
                      simp at hd
            | num a b c =>
              simp only [visitPropertyPairWith, Option.some.injEq] at hp
              rw [← hp] at hd; simp at hd
            | bool a b c =>
              simp only [visitPropertyPairWith, Option.some.injEq] at hp
              rw [← hp] at hd; simp at hd
            | null a b =>
              simp only [visitPropertyPairWith, Option.some.injEq] at hp
              rw [← hp] at hd; simp at hd
            | obj a b c =>
              simp only [visitPropertyPairWith, Option.some.injEq] at hp
              rw [← hp] at hd; simp at hd
            | arr a b c =>
              simp only [visitPropertyPairWith, Option.some.injEq] at hp
              rw [← hp] at hd; simp at hd
            | prop a b c =>
              simp only [visitPropertyPairWith, Option.some.injEq] at hp
              rw [← hp] at hd; simp at hd
      | str a b c =>
        simp only [visitPropertyPairWith, Option.some.injEq] at hp
        rw [← hp] at hd; simp at hd
      | num a b c =>
        simp only [visitPropertyPairWith, Option.some.injEq] at hp
        rw [← hp] at hd; simp at hd
      | bool a b c =>
        simp only [visitPropertyPairWith, Option.some.injEq] at hp
        rw [← hp] at hd; simp at hd
      | null a b =>
        simp only [visitPropertyPairWith, Option.some.injEq] at hp
        rw [← hp] at hd; simp at hd
      | obj a b c =>
        simp only [visitPropertyPairWith, Option.some.injEq] at hp
        rw [← hp] at hd; simp at hd
      | arr a b c =>
        simp only [visitPropertyPairWith, Option.some.injEq] at hp
        rw [← hp] at hd; simp at hd
    have hprops : ∀ (rfuel : Nat) (root : JVal) (cfg : Config) (props : List DocNode)
        (rs : JVal) (r : List Diagnostic × List String),
        visitPropertiesWith (fun nd s => visitNodeForDiagnostics rfuel dfuel nd s root cfg)
          props rs cfg = some r →
        ∀ d ∈ r.1, isMissingMessage d.message → d.endOff = d.startOff + 1 := by
      intro rfuel root cfg props
      induction props with
      | nil =>
        intro rs r h d hd hform
        simp only [visitPropertiesWith, Option.some.injEq] at h
        rw [← h] at hd
        simp at hd
      | cons p rest ihp =>
        intro rs r h d hd hform
        simp only [visitPropertiesWith] at h
        cases hp : visitPropertyPairWith
            (fun nd s => visitNodeForDiagnostics rfuel dfuel nd s root cfg) p rs cfg with
        | none => rw [hp] at h; exact absurd h (by simp)
        | some r1 =>
          rw [hp] at h
          cases hr : visitPropertiesWith
              (fun nd s => visitNodeForDiagnostics rfuel dfuel nd s root cfg) rest rs cfg with
          | none =>
            rw [hr] at h
            obtain ⟨d1, k1⟩ := r1
            exact absurd h (by simp)
          | some r2 =>
            rw [hr] at h
            obtain ⟨d1, k1⟩ := r1
            obtain ⟨d2, k2⟩ := r2
            simp only [Option.some.injEq] at h
            rw [← h] at hd
            simp only [List.mem_append] at hd
            rcases hd with hd | hd
            · exact hpair rfuel root cfg p rs (d1, k1) hp d hd hform
            · exact ihp rs (d2, k2) hr d hd hform
    have hitems : ∀ (rfuel : Nat) (root : JVal) (cfg : Config) (elems : List DocNode)
        (index : Nat) (items : Option JVal) (ds : List Diagnostic),
        visitArrayItemsWith (fun nd s => visitNodeForDiagnostics rfuel dfuel nd s root cfg)
          elems index items = some ds →
        ∀ d ∈ ds, isMissingMessage d.message → d.endOff = d.startOff + 1 := by
      intro rfuel root cfg elems
      induction elems with
      | nil =>
        intro index items ds h d hd hform
        simp only [visitArrayItemsWith, Option.some.injEq] at h
        rw [← h] at hd
        simp at hd
      | cons e rest ihe =>
        intro index items ds h d hd hform
        simp only [visitArrayItemsWith] at h
        have hhead : ∀ (h1 : List Diagnostic),
            (match resolveArrayItemSchema items index with
              | some s =>
                if jsFalsy s then some []
                else visitNodeForDiagnostics rfuel dfuel e s root cfg
              | none => some ([] : List Diagnostic)) = some h1 →
            ∀ d ∈ h1, isMissingMessage d.message → d.endOff = d.startOff + 1 := by
          intro h1 hh d2 hd2 hform2
          cases hsch : resolveArrayItemSchema items index with
          | none =>
            rw [hsch] at hh
            have hh2 : (some ([] : List Diagnostic)) = some h1 := hh
            simp only [Option.some.injEq] at hh2
            rw [← hh2] at hd2
            simp at hd2
          | some s =>
            rw [hsch] at hh
            have hh2 : (if jsFalsy s = true then some ([] : List Diagnostic)
                else visitNodeForDiagnostics rfuel dfuel e s root cfg) = some h1 := hh
            by_cases hf : jsFalsy s = true
            · rw [if_pos hf] at hh2
              simp only [Option.some.injEq] at hh2
              rw [← hh2] at hd2
              simp at hd2
            · rw [if_neg hf] at hh2
              exact ih rfuel e s root cfg h1 hh2 d2 hd2 hform2
        cases hh : (match resolveArrayItemSchema items index with
            | some s =>
              if jsFalsy s then some []
              else visitNodeForDiagnostics rfuel dfuel e s root cfg
            | none => some ([] : List Diagnostic)) with
        | none => rw [hh] at h; exact absurd h (by simp)
        | some h1 =>
          rw [hh] at h
          cases hr : visitArrayItemsWith
              (fun nd s => visitNodeForDiagnostics rfuel dfuel nd s root cfg)
              rest (index + 1) items with
          | none => rw [hr] at h; exact absurd h (by simp)
          | some d2s =>
            rw [hr] at h
            simp only [Option.some.injEq] at h
            rw [← h] at hd
            simp only [List.mem_append] at hd
            rcases hd with hd | hd
            · exact hhead h1 hh d hd hform
            · exact ihe (index + 1) items d2s hr d hd hform
    intro rfuel node S root cfg ds h
    simp only [visitNodeForDiagnostics] at h
    by_cases hfS : jsFalsy S = true
    · rw [if_pos hfS] at h
      simp only [Option.some.injEq] at h
      rw [← h]
      simp
    · rw [if_neg hfS] at h
      cases hres : resolveSchemaNodeF rfuel S root [] with
      | none => rw [hres] at h; exact absurd h (by simp)
      | some rr =>
        rw [hres] at h
        cases rr with
        | none =>
          simp only [Option.some.injEq] at h
          rw [← h]
          simp
        | some rs =>
          simp only [] at h
          by_cases hf : jsFalsy rs = true
          · rw [if_pos hf] at h
            simp only [Option.some.injEq] at h
            rw [← h]
            simp
          · rw [if_neg hf] at h
            by_cases hcompat : isNodeTypeCompatible node rs = true
            · rw [if_neg (by simp [hcompat])] at h
              cases node with
              | obj o l children =>
                have h2 : (if !(isObjectSchema rs) then some ([] : List Diagnostic)
                    else
                      match requiredKeyList rs with
                      | none => none
                      | some reqKeys =>
                        match visitPropertiesWith
                            (fun nd s => visitNodeForDiagnostics rfuel dfuel nd s root cfg)
                            children rs cfg with
                        | none => none
                        | some (ds1, present) =>
                          some (ds1 ++ (reqKeys.filter
                              (fun k => !(k == "$schema") && !(present.contains k))).map
                            (fun k => createMissingRequiredDiagnostic
                              (DocNode.obj o l children) k))) = some ds := h
                by_cases hobj : isObjectSchema rs = true
                · rw [if_neg (by simp [hobj])] at h2
                  cases hreq : requiredKeyList rs with
                  | none => rw [hreq] at h2; exact absurd h2 (by simp)
                  | some reqKeys =>
                    rw [hreq] at h2
                    cases hvp : visitPropertiesWith
                        (fun nd s => visitNodeForDiagnostics rfuel dfuel nd s root cfg)
                        children rs cfg with
                    | none => rw [hvp] at h2; exact absurd h2 (by simp)
                    | some r =>
                      rw [hvp] at h2
                      obtain ⟨dsp, present⟩ := r
                      simp only [Option.some.injEq] at h2
                      intro d hd hform
                      rw [← h2] at hd
                      simp only [List.mem_append] at hd
                      rcases hd with hd | hd
                      · exact hprops rfuel root cfg children rs (dsp, present) hvp d hd hform
                      · simp only [List.mem_map] at hd
                        obtain ⟨k, _, hdk⟩ := hd
                        rw [← hdk]
                        simp [createMissingRequiredDiagnostic]
                · rw [if_pos (by simp [hobj])] at h2
                  simp only [Option.some.injEq] at h2
                  rw [← h2]
                  simp
              | arr o l elems =>
                have h2 : (if !(isArraySchema rs) then some ([] : List Diagnostic)
                    else visitArrayItemsWith
                        (fun nd s => visitNodeForDiagnostics rfuel dfuel nd s root cfg)
                        elems 0 (getField rs "items")) = some ds := h
                by_cases harr : isArraySchema rs = true
                · rw [if_neg (by simp [harr])] at h2
                  intro d hd hform
                  exact hitems rfuel root cfg elems 0 (getField rs "items") ds h2 d hd hform
                · rw [if_pos (by simp [harr])] at h2
                  simp only [Option.some.injEq] at h2
                  rw [← h2]
                  simp
              | str a b c =>
                have h2 : (some ([] : List Diagnostic)) = some ds := h
                simp only [Option.some.injEq] at h2
                rw [← h2]
                simp
              | num a b c =>
                have h2 : (some ([] : List Diagnostic)) = some ds := h
                simp only [Option.some.injEq] at h2
                rw [← h2]
                simp
              | bool a b c =>
                have h2 : (some ([] : List Diagnostic)) = some ds := h
                simp only [Option.some.injEq] at h2
                rw [← h2]
                simp
              | null a b =>
                have h2 : (some ([] : List Diagnostic)) = some ds := h
                simp only [Option.some.injEq] at h2
                rw [← h2]
                simp
              | prop a b c =>
                have h2 : (some ([] : List Diagnostic)) = some ds := h
                simp only [Option.some.injEq] at h2
                rw [← h2]
                simp
            · rw [if_pos (by simp [hcompat])] at h
              simp only [Option.some.injEq] at h
              intro d hd hform
              rw [← h] at hd
              simp only [List.mem_singleton] at hd
              rw [hd] at hform
              exact absurd hform (not_missing_typeMessage _)

def c10Schema : JVal :=
  JVal.obj [("type", JVal.str "object"), ("required", JVal.arr [JVal.str "a"])]

def c10Diag : Diagnostic :=
  { startOff := 7, endOff := 8, message := missingRequiredMessage "a",
    severity := "warning" }

/-- **C10.** Every missing-required diagnostic's source range spans exactly one
character: `createMissingRequiredDiagnostic` always produces the range
`[objectNode.offset, objectNode.offset + 1)` starting at the owning object
node's start offset, independent of the node's length; consequently every
diagnostic carrying a missing-required message in any visitor output satisfies
`endOff = startOff + 1`. -/
theorem C10_missing_required_span_one_char :
    (∀ (objectNode : DocNode) (key : String),
      createMissingRequiredDiagnostic objectNode key =
        { startOff := objectNode.offset, endOff := objectNode.offset + 1,
          message := missingRequiredMessage key, severity := "warning" }) ∧
    (∀ (rfuel dfuel : Nat) (node : DocNode) (S root : JVal) (cfg : Config)
        (ds : List Diagnostic),
      visitNodeForDiagnostics rfuel dfuel node S root cfg = some ds →
      ∀ d ∈ ds, isMissingMessage d.message → d.endOff = d.startOff + 1) :=
  ⟨fun _ _ => rfl,
   fun rfuel dfuel node S root cfg ds h =>
     C10_span_aux dfuel rfuel node S root cfg ds h⟩

/-- Concrete run backing C10: the schema requires `"a"`, the empty object node
sits at offset 7 with length 20, and the produced missing-required diagnostic
spans exactly `[7, 8)`. -/
theorem C10_missing_required_span_one_char_witness :
    visitNodeForDiagnostics 5 5 (DocNode.obj 7 20 []) c10Schema c10Schema
        ⟨true⟩ = some [c10Diag] ∧
    c10Diag.endOff = c10Diag.startOff + 1 :=
  ⟨by decide,
   C10_missing_required_span_one_char.2 5 5 (DocNode.obj 7 20 []) c10Schema
     c10Schema ⟨true⟩ [c10Diag] (by decide) c10Diag (List.mem_singleton.mpr rfl)
     ⟨"a", rfl⟩⟩
